import Mathlib

/-!
Shallow embedding of the txtorcon configuration and state layer
(src/txtorcon/torconfig.py and src/txtorcon/torstate.py), together with
theorems settling the frozen claims about it.  Python dictionaries are
embedded as insertion-ordered association lists, Python strings as `String`,
and raised exceptions as `Except String`.
-/

namespace Txtorcon

/-! ### String helpers

Python string primitives used by the source (slicing `x[:n]`, `str.strip()`,
`str.split()`, `str.lower()`, substring `in`) are embedded as structural
recursions over `List Char` so that they reduce in the kernel. -/

/-- Python `x[:n]` on strings. -/
def strTake (s : String) (n : Nat) : String :=
  String.mk (s.toList.take n)

/-- Python `x[n:]` on strings. -/
def strDrop (s : String) (n : Nat) : String :=
  String.mk (s.toList.drop n)

def dropWS (cs : List Char) : List Char :=
  cs.dropWhile (fun c => c.isWhitespace)

/-- Python `str.strip()` with no argument: remove leading and trailing whitespace. -/
def strTrim (s : String) : String :=
  String.mk ((dropWS (dropWS s.toList).reverse).reverse)

def wordsAux : List Char → List Char → List String
  | [], acc => if acc.isEmpty then [] else [String.mk acc.reverse]
  | c :: cs, acc =>
      if c.isWhitespace then
        if acc.isEmpty then wordsAux cs [] else String.mk acc.reverse :: wordsAux cs []
      else wordsAux cs (c :: acc)

/-- Python `str.split()` with no argument: split on whitespace runs, dropping empties. -/
def wsSplit (s : String) : List String :=
  wordsAux s.toList []

def splitOnCharAux (sep : Char) : List Char → List Char → List String
  | [], acc => [String.mk acc.reverse]
  | c :: cs, acc =>
      if c == sep then String.mk acc.reverse :: splitOnCharAux sep cs []
      else splitOnCharAux sep cs (c :: acc)

/-- Python `str.split(sep)` for a one-character separator (keeps empty pieces). -/
def splitOnCharStr (sep : Char) (s : String) : List String :=
  splitOnCharAux sep s.toList []

/-- Python `str.lower()` (ASCII as used by the source). -/
def lcStr (s : String) : String :=
  String.mk (s.toList.map Char.toLower)

def lpre : List Char → List Char → Bool
  | [], _ => true
  | _ :: _, [] => false
  | a :: as, b :: bs => a == b && lpre as bs

def subAt (pat : List Char) : List Char → Bool
  | [] => lpre pat []
  | c :: cs => lpre pat (c :: cs) || subAt pat cs

/-- Python `pat in s` substring containment. -/
def strContainsSub (s pat : String) : Bool :=
  subAt pat.toList s.toList

/-- Suffix test on strings; this follows the wording of the spec
(an address that "ends with `.exit`"), for comparison with the source
which uses substring containment. -/
def strEndsWith (s pat : String) : Bool :=
  lpre pat.toList.reverse s.toList.reverse

def isHexDigitCh (c : Char) : Bool :=
  c.isDigit || ('a' ≤ c && c ≤ 'f') || ('A' ≤ c && c ≤ 'F')

def digitsToNatAux : List Char → Nat → Option Nat
  | [], acc => some acc
  | c :: cs, acc =>
      if c.isDigit then digitsToNatAux cs (acc * 10 + (c.toNat - 48)) else none

/-- Python `int(s)` restricted to the nonnegative decimal literals the
control protocol produces (circuit ids, bandwidth values). -/
def parseNatStr (s : String) : Option Nat :=
  if s.toList.isEmpty then none else digitsToNatAux s.toList 0

def joinComma : List String → String
  | [] => ""
  | [x] => x
  | x :: xs => x ++ "," ++ joinComma xs

/-! ### Insertion-ordered maps

Python `dict` embedded as an association list: `d[k] = v` replaces the
binding in place when the key is present and appends otherwise; `in` is key
membership; `del` removes the binding.  Keys are strings throughout. -/

def mfind {V : Type} : List (String × V) → String → Option V
  | [], _ => none
  | (k', v) :: rest, k => if k' == k then some v else mfind rest k

def minsert {V : Type} : List (String × V) → String → V → List (String × V)
  | [], k, v => [(k, v)]
  | (k', v') :: rest, k, v =>
      if k' == k then (k, v) :: rest else (k', v') :: minsert rest k v

def mkeys {V : Type} (m : List (String × V)) : List String :=
  m.map Prod.fst


/-! ### torconfig.py: values and hidden-service records -/

/-- One hidden-service record (class `HiddenService`).  The fields are the
ones serialized by `config_attributes`; `hostname`/`private_key` are
file-backed and never serialized.  `version` and `auth` are `Option` because
the source treats them as possibly-`None` and tests them for truthiness. -/
structure HsRec where
  dir : String
  ports : List String
  auth : Option String
  version : Option Int
  groupReadable : Int
deriving DecidableEq

/-- A configuration value as stored in `TorConfig.config` / `TorConfig.unsaved`:
a scalar (string or int), a list (the payload of a `_ListWrapper`), or the
list of hidden-service records stored under the `HiddenServices` pseudo-key. -/
inductive CVal where
  | str (s : String)
  | int (n : Int)
  | list (xs : List String)
  | hss (hs : List HsRec)
deriving DecidableEq

/-- The parser kinds that matter for `validate`: every `TorConfigType`
subclass except `LineList` inherits the identity `validate`; `LineList`
rejects non-list values and wraps list values. -/
inductive PKind where
  | plain
  | lineList
deriving DecidableEq

/-- `HiddenService.config_attributes`: the ordered key/value block emitted
for one record.  `supportsGR` is `conf._supports['HiddenServiceDirGroupReadable']`;
the `if self.version:` / `if self.authorize_client:` guards are Python
truthiness tests. -/
def hsConfigAttributes (supportsGR : Bool) (h : HsRec) : List (String × String) :=
  [("HiddenServiceDir", h.dir)]
    ++ (if supportsGR && h.groupReadable != 0
        then [("HiddenServiceDirGroupReadable", "1")] else [])
    ++ h.ports.map (fun p => ("HiddenServicePort", p))
    ++ (match h.version with
        | some v => if v != 0 then [("HiddenServiceVersion", toString v)] else []
        | none => [])
    ++ (match h.auth with
        | some a => if a != "" then [("HiddenServiceAuthorizeClient", a)] else []
        | none => [])

/-! ### torconfig.py: TorConfig -/

/-- State of a `TorConfig` object.

* `config`  — `self.config`, the committed values (last confirmed with Tor);
* `unsaved` — `self.unsaved`, the staged values;
* `parsers` — `self.parsers` (keys plus each parser's `validate` behavior);
* `listParsers` — `self.list_parsers` (lowercased names of list-valued options);
* `slutty` — whether `_slutty_` is in `self.__dict__` (set when constructed
  without a control connection, removed by `attach_protocol`);
* `hasProtocol` — whether `self.protocol` is set;
* `supportsGR` — `self._supports['HiddenServiceDirGroupReadable']`. -/
structure TorConfig where
  config : List (String × CVal)
  unsaved : List (String × CVal)
  parsers : List (String × PKind)
  listParsers : List String
  slutty : Bool
  hasProtocol : Bool
  supportsGR : Bool
deriving DecidableEq

/-- First element of `keys` whose lowercasing equals that of `name`. -/
def firstLowerMatch (keys : List String) (name : String) : Option String :=
  keys.find? (fun x => lcStr x == lcStr name)

/-- `TorConfig._find_real_name`: scan `self.parsers.keys() + self.config.keys()`
for a case-insensitive match; fall back to the name itself. -/
def TorConfig.findRealName (c : TorConfig) (name : String) : String :=
  (firstLowerMatch (mkeys c.parsers ++ mkeys c.config) name).getD name

/-- `TorConfig._maybe_create_listwrapper`: if the (lowercased) real name has a
list parser and no committed entry yet, install an empty wrapped list. -/
def TorConfig.maybeCreateListwrapper (c : TorConfig) (rn : String) : TorConfig :=
  if c.listParsers.contains (lcStr rn) && (mfind c.config rn).isNone then
    { c with config := minsert c.config rn (CVal.list []) }
  else c

/-- `TorConfig.__getattr__`: return the staged value only when `_slutty_` is
set AND the real name is staged; otherwise return the committed value (after
possibly creating an empty list wrapper).  A `none` first component models the
`KeyError` Python raises for an unknown name.  The second component is the
(possibly updated) object state. -/
def TorConfig.getAttr (c : TorConfig) (name : String) : Option CVal × TorConfig :=
  let rn := c.findRealName name
  if c.slutty && (mfind c.unsaved rn).isSome then
    (mfind c.unsaved rn, c)
  else
    let c' := c.maybeCreateListwrapper rn
    (mfind c'.config rn, c')

/-- `validate` of the parser kinds: identity for every kind except
`LineList`, which raises `ValueError` on a non-list and wraps a list. -/
def validateVal (pk : PKind) (v : CVal) : Except String CVal :=
  match pk with
  | .plain => .ok v
  | .lineList =>
      match v with
      | .list xs => .ok (.list xs)
      | _ => .error "ValueError: Not valid for LineList"

/-- `TorConfig.__setattr__` after construction (`_setup_` present): resolve the
real name, validate through the parser unless `_slutty_` is set or the name is
`hiddenservices`, wrap lists, and store the result in `unsaved` (and only
there).  The `error` branch models the `KeyError` on a missing parser. -/
def TorConfig.setAttr (c : TorConfig) (name : String) (value : CVal) :
    Except String TorConfig :=
  if !c.slutty && !(lcStr (c.findRealName name) == "hiddenservices") then
    match mfind c.parsers (c.findRealName name) with
    | none => .error "KeyError: no parser for option"
    | some pk =>
        match validateVal pk value with
        | .error e => .error e
        | .ok v' => .ok { c with unsaved := minsert c.unsaved (c.findRealName name) v' }
  else
    .ok { c with unsaved := minsert c.unsaved (c.findRealName name) value }

/-- `TorConfig.needs_save`: `len(self.unsaved) > 0`. -/
def TorConfig.needsSave (c : TorConfig) : Bool :=
  decide (0 < c.unsaved.length)

/-- `TorConfig.mark_unsaved`: copy the committed value into `unsaved` when the
real name is committed and not already staged; otherwise do nothing.  The
inner `c.findRealName rn` mirrors the second `_find_real_name` call in the
source (`self.unsaved[name] = self.config[self._find_real_name(name)]`); its
`none` branch is unreachable because `findRealName` is idempotent and the
outer lookup succeeded (Python would raise `KeyError` there). -/
def TorConfig.markUnsaved (c : TorConfig) (name : String) : TorConfig :=
  if (mfind c.config (c.findRealName name)).isSome
      && (mfind c.unsaved (c.findRealName name)).isNone then
    match mfind c.config (c.findRealName (c.findRealName name)) with
    | some v => { c with unsaved := minsert c.unsaved (c.findRealName name) v }
    | none => c
  else c

/-- `TorConfig._conf_changed`: every parsed KEYWORD/VALUE pair is written into
`self.config` under `_find_real_name(keyword)` — committed only, never staged,
and with no known-option check.  The pair list stands for the output of the
external `parse_keywords` (torcontrolprotocol.py, outside src/), which per the
spec yields one KEY[=VALUE] pair per 650 line. -/
def TorConfig.confChanged (c : TorConfig) (pairs : List (String × String)) : TorConfig :=
  pairs.foldl
    (fun cc kv => { cc with config := minsert cc.config (cc.findRealName kv.1) (CVal.str kv.2) })
    c

/-- The body of the `save` loop restricted to its `self.config` updates:
`HiddenServices` is written back under that literal key; every other staged
key is written under `_find_real_name(key)` computed against the current
(growing) config. -/
def savePromote (parserNames : List String) :
    List (String × CVal) → List (String × CVal) → List (String × CVal)
  | cfg, [] => cfg
  | cfg, (k, v) :: rest =>
      if k == "HiddenServices" then
        savePromote parserNames (minsert cfg "HiddenServices" v) rest
      else
        savePromote parserNames
          (minsert cfg ((firstLowerMatch (parserNames ++ mkeys cfg) k).getD k) v) rest

/-- The SETCONF argument pairs contributed by one staged entry: hidden
services expand through `config_attributes`, list values emit one pair per
element, scalars one pair.  The empty result on a non-`hss` value under the
`HiddenServices` key models the unreachable `for hs in value` on a non-list. -/
def saveArgsFor (supportsGR : Bool) (k : String) (v : CVal) : List (String × CVal) :=
  if k == "HiddenServices" then
    match v with
    | .hss hs => (hs.map (hsConfigAttributes supportsGR)).flatten.map
        (fun kv => (kv.1, CVal.str kv.2))
    | _ => []
  else
    match v with
    | .list xs => xs.map (fun x => (k, CVal.str x))
    | v' => [(k, v')]

/-- Result of `TorConfig.save`: the new object state, whether the returned
Deferred succeeds, and the argument pairs passed to `set_conf`. -/
structure SaveOut where
  conf : TorConfig
  ok : Bool
  args : List (String × CVal)
deriving DecidableEq

/-- `TorConfig.save`.  With nothing staged it succeeds immediately.  Otherwise
the loop first writes every staged value into `self.config` and assembles the
SETCONF arguments; only then is `set_conf` issued.  `daemonAccepts` stands for
Tor's reply: on refusal `_save_completed` never runs, so `unsaved` is kept —
but the `config` writes have already happened.  Without a protocol,
`_save_completed` runs synchronously. -/
def TorConfig.save (c : TorConfig) (daemonAccepts : Bool) : SaveOut :=
  if c.needsSave = false then ⟨c, true, []⟩
  else
    let cfg' := savePromote (mkeys c.parsers) c.config c.unsaved
    let args := (c.unsaved.map (fun kv => saveArgsFor c.supportsGR kv.1 kv.2)).flatten
    if c.hasProtocol then
      if daemonAccepts then
        ⟨{ c with config := cfg', unsaved := [] }, true, args⟩
      else
        ⟨{ c with config := cfg' }, false, args⟩
    else
      ⟨{ c with config := cfg', unsaved := [] }, true, args⟩

/-! ### torconfig.py: change-tracking list (`_ListWrapper`) -/

/-- The mutating list operations of Python 2 lists.  `_ListWrapper` wraps
`__setitem__`, `__setslice__`, `append`, `extend`, `insert`, `remove` and
`pop` through `_wrapture`; `sort` and `reverse` exist on lists but are not
wrapped (and Python 2 lists have no `clear`). -/
inductive ListOp where
  | setItem (i : Nat) (v : String)
  | setSlice (i j : Nat) (vs : List String)
  | append (v : String)
  | extendL (vs : List String)
  | insertAt (i : Nat) (v : String)
  | removeV (v : String)
  | pop
  | sort
  | reverse
deriving DecidableEq

/-- Which operations `_ListWrapper` routes through `_wrapture` (and thus
through `on_modify`).  Read directly off the class body of `_ListWrapper`. -/
def wrappedOp : ListOp → Bool
  | .sort => false
  | .reverse => false
  | _ => true

def insertIdx (xs : List String) (i : Nat) (v : String) : List String :=
  xs.take i ++ [v] ++ xs.drop i

/-- Delegation to the underlying `list` method (index clamping stands in for
Python's `IndexError`/`ValueError` on out-of-range arguments, which no claim
exercises). -/
def listDelegate : ListOp → List String → List String
  | .setItem i v, xs => xs.set i v
  | .setSlice i j vs, xs => xs.take i ++ vs ++ xs.drop j
  | .append v, xs => xs ++ [v]
  | .extendL vs, xs => xs ++ vs
  | .insertAt i v, xs => insertIdx xs i v
  | .removeV v, xs => xs.erase v
  | .pop, xs => xs.dropLast
  | .sort, xs => xs.mergeSort (fun a b => decide (a ≤ b))
  | .reverse, xs => xs.reverse

/-- One mutation through a `_ListWrapper` whose `on_modify` is
`functools.partial(conf.mark_unsaved, rn)`: a wrapped operation first calls
`on_modify` (i.e. `mark_unsaved rn`) and then delegates; an unwrapped one
only delegates. -/
def applyListOp (c : TorConfig) (rn : String) (xs : List String) (op : ListOp) :
    TorConfig × List String :=
  ((if wrappedOp op then c.markUnsaved rn else c), listDelegate op xs)

/-- A sequence of mutations through the same exposed list handle. -/
def applyListOps (c : TorConfig) (rn : String) (xs : List String) :
    List ListOp → TorConfig × List String
  | [] => (c, xs)
  | op :: rest =>
      let p := applyListOp c rn xs op
      applyListOps p.1 rn p.2 rest

/-! ### torstate.py: routers and the consensus FSM -/

/-- A router as populated from a consensus header and the following lines.
Modelled from the spec: the `Router` value object (router.py) is outside
src/; per the spec a router "is identified by a 40-hex fingerprint
(`id_hex`, stored with a leading `$`)" derived from the header's identity
field, which we therefore model as that fingerprint.  The publication
timestamp is kept as the raw date/time strings (its parsing lives in the
external `datetime`). -/
structure RouterRec where
  name : String
  idHex : String
  orHash : String
  modified : String
  ip : String
  orPort : String
  dirPort : String
  flags : List String
  bandwidth : Option Nat
  policy : List String
  ipV6 : List String
deriving DecidableEq

/-- States of `_network_status_parser` (`waiting_r` etc. in `TorState.__init__`). -/
inductive NSState where
  | waitingR
  | waitingS
  | waitingW
  | waitingP
deriving DecidableEq

/-- The `TorState` fields touched by the consensus parser.  Python router
objects are aliased across the indices, so the model keeps an object heap
`objs` keyed by `id_hex` and stores references (id_hex strings) in the
indices.  `routers` maps both id_hex keys and nickname keys; a `some none`
value is the Python `None` sentinel left for duplicate nicknames.
`current` is `self._router`. -/
structure NetState where
  objs : List (String × RouterRec)
  routers : List (String × Option String)
  routersByName : List (String × List String)
  routersByHash : List (String × String)
  allRouters : List String
  guards : List (String × String)
  authorities : List (String × String)
  current : Option String
  fsm : NSState
deriving DecidableEq

def initNetState : NetState :=
  ⟨[], [], [], [], [], [], [], none, NSState.waitingR⟩

/-- The header fields `_router_begin` extracts from an `r` line. -/
structure HeaderRec where
  name : String
  idHash : String
  orHash : String
  modified : String
  ip : String
  orPort : String
  dirPort : String
deriving DecidableEq

def HeaderRec.idHex (h : HeaderRec) : String := "$" ++ h.idHash

def HeaderRec.toRouter (h : HeaderRec) : RouterRec :=
  ⟨h.name, h.idHex, h.orHash, h.modified, h.ip, h.orPort, h.dirPort, [], none, [], []⟩

/-- The index updates of `TorState._router_begin` once the fields are parsed:
if the id is already tracked, reuse the existing object (`self._router =
self.routers[id_hex]`) and change nothing else; otherwise append to
`routers_by_name[name]`, null the `routers[name]` slot on a nickname
collision, and index the new router by id. -/
def routerBeginRec (st : NetState) (h : HeaderRec) : NetState :=
  match mfind st.routers h.idHex with
  | some ref => { st with current := ref }
  | none =>
      let r := h.toRouter
      let rbn :=
        match mfind st.routersByName h.name with
        | some l => minsert st.routersByName h.name (l ++ [h.idHex])
        | none => minsert st.routersByName h.name [h.idHex]
      let routers1 :=
        if (mfind st.routers h.name).isSome then minsert st.routers h.name none
        else minsert st.routers h.name (some h.idHex)
      let routers2 := minsert routers1 h.idHex (some h.idHex)
      { st with
          objs := minsert st.objs h.idHex r
          routers := routers2
          routersByName := rbn
          routersByHash := minsert st.routersByHash h.idHex h.idHex
          allRouters :=
            if st.allRouters.contains h.idHex then st.allRouters
            else st.allRouters ++ [h.idHex]
          current := some h.idHex }

/-- `TorState._router_begin`: split the line, extract the seven fields
(raising `IndexError` when too short), then update the indices. -/
def routerBegin (st : NetState) (line : String) : Except String NetState :=
  match wsSplit line with
  | _ :: a1 :: a2 :: a3 :: a4 :: a5 :: a6 :: a7 :: a8 :: _ =>
      .ok (routerBeginRec st ⟨a1, a2, a3, a4 ++ a5, a6, a7, a8⟩)
  | _ => .error "IndexError: router header too short"

/-- Mutate the current router object through its heap reference; `none`
models the `AttributeError` Python raises when `self._router` is `None` or
the reference is dangling. -/
def withCurrent (st : NetState) (f : NetState → String → RouterRec → NetState) :
    Except String NetState :=
  match st.current with
  | none => .error "AttributeError: NoneType"
  | some ref =>
      match mfind st.objs ref with
      | none => .error "AttributeError: unknown router object"
      | some r => .ok (f st ref r)

/-- `TorState._router_flags`: store `args[1:]` as the flags; index the router
in `guards` when the flag `guard` is present and in `authorities` (by name)
when `authority` is present.  (The `Router` value object, outside src/, may
normalize flags on assignment; the model stores the tokens as given — no
claim depends on the flag spelling.) -/
def routerFlags (st : NetState) (line : String) : Except String NetState :=
  withCurrent st (fun st ref r =>
    let fl := (wsSplit line).drop 1
    let r' := { r with flags := fl }
    { st with
        objs := minsert st.objs ref r'
        guards := if fl.contains "guard" then minsert st.guards r.idHex ref else st.guards
        authorities :=
          if fl.contains "authority" then minsert st.authorities r.name ref
          else st.authorities })

/-- `TorState._router_address` (IPv6 `a` lines): append `data.split()[1].strip()`. -/
def routerAddress (st : NetState) (line : String) : Except String NetState :=
  match (wsSplit line).drop 1 with
  | [] => .error "IndexError: a line too short"
  | addr :: _ =>
      withCurrent st (fun st ref r =>
        { st with objs := minsert st.objs ref { r with ipV6 := r.ipV6 ++ [strTrim addr] } })

/-- `TorState._router_bandwidth`: `int(args[1].split('=')[1])`. -/
def routerBandwidth (st : NetState) (line : String) : Except String NetState :=
  match (wsSplit line).drop 1 with
  | [] => .error "IndexError: w line too short"
  | arg :: _ =>
      match splitOnCharStr '=' arg with
      | _ :: bw :: _ =>
          match parseNatStr bw with
          | some n =>
              withCurrent st (fun st ref r =>
                { st with objs := minsert st.objs ref { r with bandwidth := some n } })
          | none => .error "ValueError: invalid int"
      | _ => .error "IndexError: no = in w argument"

/-- `TorState._router_policy`: store `args[1:]` and clear `self._router`. -/
def routerPolicy (st : NetState) (line : String) : Except String NetState :=
  match withCurrent st (fun st ref r =>
      { st with objs := minsert st.objs ref { r with policy := (wsSplit line).drop 1 } }) with
  | .error e => .error e
  | .ok st' => .ok { st' with current := none }

/-- The `ignorable_line` guard shared by all states. -/
def ignorableLine (x : String) : Bool :=
  strTrim x == "." || strTrim x == "OK" || strTake x 3 == "ns/" || strTrim x == ""

/-- One step of `_network_status_parser`.  Modelled from the spec: the
`spaghetti` FSM engine is not under src/; transitions fire first-match in
the order they were added, which is what the catch-all `die` transitions of
the source require.  The transition tables themselves are copied from
`TorState.__init__`; note that `waiting_s` has `r`-line transitions in
neither position — an `r` line there falls through to the `die` catch-all. -/
def processLine (st : NetState) (line : String) : Except String NetState :=
  match st.fsm with
  | .waitingR =>
      if ignorableLine line then .ok { st with fsm := .waitingR }
      else if strTake line 2 == "r " then
        match routerBegin st line with
        | .ok st' => .ok { st' with fsm := .waitingS }
        | .error e => .error e
      else .error ("Expected an r line while parsing routers, not: " ++ line)
  | .waitingS =>
      if strTake line 2 == "s " then
        match routerFlags st line with
        | .ok st' => .ok { st' with fsm := .waitingW }
        | .error e => .error e
      else if strTake line 2 == "a " then
        match routerAddress st line with
        | .ok st' => .ok { st' with fsm := .waitingS }
        | .error e => .error e
      else if ignorableLine line then .ok { st with fsm := .waitingR }
      else .error ("Expected an s line while parsing routers, not: " ++ line)
  | .waitingW =>
      if strTake line 2 == "w " then
        match routerBandwidth st line with
        | .ok st' => .ok { st' with fsm := .waitingP }
        | .error e => .error e
      else if ignorableLine line then .ok { st with fsm := .waitingR }
      else if strTake line 2 == "r " then
        match routerBegin st line with
        | .ok st' => .ok { st' with fsm := .waitingS }
        | .error e => .error e
      else .error ("Expected a w line while parsing routers, not: " ++ line)
  | .waitingP =>
      if strTake line 2 == "p " then
        match routerPolicy st line with
        | .ok st' => .ok { st' with fsm := .waitingR }
        | .error e => .error e
      else if ignorableLine line then .ok { st with fsm := .waitingR }
      else if strTake line 2 == "r " then
        match routerBegin st line with
        | .ok st' => .ok { st' with fsm := .waitingS }
        | .error e => .error e
      else .error ("Expected a p line while parsing routers, not: " ++ line)

def processLines (st : NetState) : List String → Except String NetState
  | [] => .ok st
  | l :: rest =>
      match processLine st l with
      | .ok st' => processLines st' rest
      | .error e => .error e

/-- The dedup pass at the end of `_update_network_status`: delete every
`routers` entry whose value is the `None` sentinel. -/
def cleanupDupes (st : NetState) : NetState :=
  { st with routers := st.routers.filter (fun kv => kv.2.isSome) }

/-- `TorState._update_network_status` on a list of consensus lines: reset
`all_routers`, feed every line through the FSM, then drop the duplicate
nickname sentinels.  (Bootstrap reaches the same code: the lines are fed
incrementally through the same FSM and `_update_network_status` then runs on
the residual empty payload.)  Only `all_routers` is reset — `routers`,
`routers_by_name` and `routers_by_hash` keep their previous contents. -/
def updateNetworkStatus (st : NetState) (lines : List String) : Except String NetState :=
  match processLines { st with allRouters := [] } lines with
  | .ok st' => .ok (cleanupDupes st')
  | .error e => .error e

/-- A single-parse run of the router-indexing core: feed a sequence of
already-parsed router headers through `_router_begin` starting from empty
indices, then run the dedup pass. -/
def runHeaderParse (hs : List HeaderRec) : NetState :=
  cleanupDupes (hs.foldl routerBeginRec initNetState)

/-! ### torstate.py: build_circuit and the extend reply -/

/-- An element of the `routers` argument of `build_circuit`: either a
`Router` instance (of which only `id_hex`, with its leading `$`, matters
here) or a plain string. -/
inductive CircSpec where
  | router (idHex : String)
  | strV (s : String)
deriving DecidableEq

/-- Modelled from the spec: `hashFromHexId` (router.py, outside src/) maps a
40-hex fingerprint to its binary hash; it returns a truthy value exactly on
hex-digit input and raises otherwise. -/
def hashFromHexIdOk (s : String) : Bool :=
  s.toList.all isHexDigitCh

/-- The per-element logic of the `build_circuit` loop: a string of length 40
whose `hashFromHexId` succeeds is used verbatim; anything else falls into the
`router.id_hex[1:]` branch, which on a string raises `AttributeError` and on
a Router strips the leading `$`. -/
def circElem : CircSpec → Except String String
  | .router h => .ok (strDrop h 1)
  | .strV s =>
      if s.length == 40 then
        if hashFromHexIdOk s then .ok s
        else .error "TypeError: non-hexadecimal digit found"
      else .error "AttributeError: str object has no attribute id_hex"

def circElems : List CircSpec → Except String (List String)
  | [] => .ok []
  | c :: cs =>
      match circElem c with
      | .error e => .error e
      | .ok s =>
          match circElems cs with
          | .error e => .error e
          | .ok ss => .ok (s :: ss)

/-- `TorState.build_circuit`: the command string finally queued (the
`using_guards` check only emits a warning and never changes the command). -/
def buildCircuitCmd (routers : Option (List CircSpec)) : Except String String :=
  match routers with
  | none => .ok "EXTENDCIRCUIT 0"
  | some [] => .ok "EXTENDCIRCUIT 0"
  | some rs =>
      match circElems rs with
      | .error e => .error e
      | .ok parts => .ok ("EXTENDCIRCUIT 0 " ++ joinComma parts)

/-- `TorState._find_circuit_after_extend`: `ex, circ_id = x.split()` (a
`ValueError` unless exactly two tokens), require `ex == 'EXTENDED'`, parse
the id.  The returned id is the one the fabricated Circuit gets via
`circ.update([str(circ_id), 'EXTENDED'])` (the `Circuit` value object lives
outside src/; per the spec its update sets `.id` from the first argument). -/
def findCircuitAfterExtend (reply : String) : Except String Nat :=
  match wsSplit reply with
  | [ex, cid] =>
      if ex == "EXTENDED" then
        match parseNatStr cid with
        | some n => .ok n
        | none => .error "ValueError: invalid int"
      else .error ("Expected EXTENDED, got " ++ reply)
  | _ => .error "ValueError: unpack"

/-! ### torstate.py: the stream attacher bridge (`_maybe_attach`) -/

/-- The circuit attributes `_maybe_attach` inspects. -/
structure CircuitRec where
  id : Nat
  state : String
deriving DecidableEq

/-- What `attach_stream` hands back: the sentinel `DO_NOT_ATTACH`, `None`, a
circuit, or a Deferred that later resolves to a circuit. -/
inductive AttacherReturn where
  | doNotAttach
  | torChooses
  | circuitNow (c : CircuitRec)
  | circuitLater (c : CircuitRec)
deriving DecidableEq

/-- Observable outcome of `_maybe_attach` for one new stream: whether the
user attacher ran, the ATTACHSTREAM commands eventually queued, and the
`RuntimeError` raised (if any). -/
structure AttachOutcome where
  attacherInvoked : Bool
  cmds : List String
  err : Option String
deriving DecidableEq

/-- `TorState._maybe_attach` for a newly observed stream, given the registered
attacher's eventual answer.  With no attacher nothing happens.  A target host
containing the substring `.exit` is ignored before the attacher runs.  A
synchronously returned circuit must be tracked and in state `BUILT`; a
circuit delivered through a Deferred is attached by `IssueStreamAttach`
unconditionally (the callback queues `ATTACHSTREAM` with the resolved id and
performs neither check). -/
def maybeAttach (hasAttacher : Bool) (targetHost : Option String) (sid : Nat)
    (circuitIds : List Nat) (ret : AttacherReturn) : AttachOutcome :=
  if !hasAttacher then ⟨false, [], none⟩
  else if (match targetHost with
           | some h => strContainsSub h ".exit"
           | none => false) then ⟨false, [], none⟩
  else
    match ret with
    | .doNotAttach => ⟨true, [], none⟩
    | .torChooses => ⟨true, ["ATTACHSTREAM " ++ toString sid ++ " 0"], none⟩
    | .circuitLater c =>
        ⟨true, ["ATTACHSTREAM " ++ toString sid ++ " " ++ toString c.id], none⟩
    | .circuitNow c =>
        if !circuitIds.contains c.id then
          ⟨true, [], some "Attacher returned a circuit unknown to me."⟩
        else if !(c.state == "BUILT") then
          ⟨true, [], some "Can only attach to BUILT circuits."⟩
        else
          ⟨true, ["ATTACHSTREAM " ++ toString sid ++ " " ++ toString c.id], none⟩

/-! ### Derived definitions used by the claims -/

instance instDecEqExcept {ε α : Type} [DecidableEq ε] [DecidableEq α] :
    DecidableEq (Except ε α) := fun x y =>
  match x, y with
  | .error a, .error b =>
      match decEq a b with
      | isTrue h => isTrue (h ▸ rfl)
      | isFalse h => isFalse (fun hc => h (Except.error.inj hc))
  | .ok a, .ok b =>
      match decEq a b with
      | isTrue h => isTrue (h ▸ rfl)
      | isFalse h => isFalse (fun hc => h (Except.ok.inj hc))
  | .error _, .ok _ => isFalse (fun hc => Except.noConfusion hc)
  | .ok _, .error _ => isFalse (fun hc => Except.noConfusion hc)

/-- Validity of a `build_circuit` element per the source loop: a `Router`
always works; a string must be exactly 40 hex digits. -/
def circSpecOk : CircSpec → Bool
  | .router _ => true
  | .strV s => decide (s.length = 40) && hashFromHexIdOk s

/-- The hex fragment each valid element contributes to the command. -/
def circSpecHex : CircSpec → String
  | .router h => strDrop h 1
  | .strV s => s

/-- Does a string start with the `$` that marks a fingerprint key? -/
def startsDollar (s : String) : Bool :=
  match s.toList with
  | '$' :: _ => true
  | _ => false

/-- Keep the first header seen for each `id_hex` (the later ones are the
occurrences `_router_begin` short-circuits on). -/
def firstsAux (acc : List HeaderRec) (h : HeaderRec) : List HeaderRec :=
  if acc.any (fun r => r.idHex == h.idHex) then acc else acc ++ [h]

def firstHeaders (hs : List HeaderRec) : List HeaderRec :=
  hs.foldl firstsAux []

/-- The value `_router_begin` leaves in `self.routers` at key `k` after
processing the distinct-id headers `fs` from empty indices: id keys map to
their router, a nickname key maps to its router when unique, to the `None`
sentinel when contested, and is absent otherwise. -/
def expectedRouters (fs : List HeaderRec) (k : String) : Option (Option String) :=
  if fs.any (fun r => r.idHex == k) then some (some k)
  else
    match fs.filter (fun r => r.name == k) with
    | [] => none
    | [r] => some (some r.idHex)
    | _ :: _ :: _ => some none

/-- The consensus-parser invariant tied to `_router_begin`: after feeding any
header sequence from empty indices, the router maps are determined by the
first-seen distinct headers `fs`. -/
structure RBInv (st : NetState) (fs : List HeaderRec) : Prop where
  byName : ∀ n, mfind st.routersByName n =
      (match (fs.filter (fun r => r.name == n)).map HeaderRec.idHex with
       | [] => none
       | l => some l)
  routersEq : ∀ k, mfind st.routers k = expectedRouters fs k
  nodup : (mkeys st.routers).Nodup
  namesOk : ∀ r ∈ fs, startsDollar r.name = false

/-! ### Concrete states used by the claims -/

/-- An attached `TorConfig` (constructed with a control connection, so
`_slutty_` was never set) with one option that is both committed and staged. -/
def c1ex : TorConfig :=
  ⟨[("foo", CVal.str "committed")], [("foo", CVal.str "staged")],
   [("foo", PKind.plain)], [], false, true, false⟩

/-- An attached `TorConfig` with a staged change to a committed option. -/
def c2ex : TorConfig :=
  ⟨[("foo", CVal.str "1")], [("foo", CVal.str "2")],
   [("foo", PKind.plain)], [], false, true, false⟩

/-- A config used by the save witness. -/
def c2exW : TorConfig :=
  ⟨[("Bar", CVal.str "0")], [("Bar", CVal.str "5"), ("Baz", CVal.str "6")],
   [("Bar", PKind.plain), ("Baz", PKind.plain)], [], false, true, false⟩

/-- An attached config knowing only the option `Foo`. -/
def c8ex : TorConfig :=
  ⟨[("Foo", CVal.str "1")], [], [("Foo", PKind.plain)], [], false, true, false⟩

/-- An attached config with a committed list-valued option. -/
def c4ex : TorConfig :=
  ⟨[("SOCKSPort", CVal.list ["9051", "9050"])], [],
   [("SOCKSPort", PKind.lineList)], ["socksport"], false, true, false⟩

/-- A config used by the mark_unsaved witness. -/
def c10ex : TorConfig :=
  ⟨[("Foo", CVal.str "1")], [("Other", CVal.str "9")],
   [("Foo", PKind.plain), ("Other", PKind.plain)], [], false, true, false⟩

/-- A `$`-prefixed fingerprint string (41 characters). -/
def dollar41 : String := "$AAAAAAAAAAAAAAAAAAAAAAAAAAAAAAAAAAAAAAAA"

/-- A bare 40-hex fingerprint string. -/
def hex40 : String := "BBBBBBBBBBBBBBBBBBBBBBBBBBBBBBBBBBBBBBBB"

/-- The parser state reached from the initial state by one router header:
`waiting_s` with the router `$AA` current. -/
def exStS : NetState :=
  match processLine initNetState "r NickA AA oo 2024-01-01 00:00:00 1.2.3.4 9001 0" with
  | .ok st => st
  | .error _ => initNetState

/-- The router record held by `exStS`. -/
def exRecA : RouterRec :=
  ⟨"NickA", "$AA", "oo", "2024-01-0100:00:00", "1.2.3.4", "9001", "0", [], none, [], []⟩

/-- First consensus payload: two distinct routers both named `N`. -/
def c6lines1 : List String :=
  ["r N A o 2024-01-01 00:00:00 1.2.3.4 9001 0", "s Fast Running",
   "r N B o 2024-01-01 00:00:00 1.2.3.5 9001 0", "s Fast Running"]

/-- Second consensus payload: a third router also named `N`. -/
def c6lines2 : List String :=
  ["r N C o 2024-01-01 00:00:00 1.2.3.6 9001 0"]

/-- The state after the bootstrap parse of `c6lines1` followed by an
NS/NEWCONSENSUS re-parse of `c6lines2`. -/
def c6twoParse : Except String NetState :=
  match updateNetworkStatus initNetState c6lines1 with
  | .ok st => updateNetworkStatus st c6lines2
  | .error e => .error e

def c6finalState : NetState :=
  match c6twoParse with
  | .ok st => st
  | .error _ => initNetState

/-- Two headers with distinct ids sharing the nickname `N`, and a third. -/
def c6hdrA : HeaderRec := ⟨"N", "A", "o", "d", "1.2.3.4", "9001", "0"⟩

def c6hdrB : HeaderRec := ⟨"N", "B", "o", "d", "1.2.3.5", "9001", "0"⟩

/-! ### Lemmas about the map operations -/

@[simp] theorem mkeys_nil {V : Type} : mkeys ([] : List (String × V)) = [] := rfl

@[simp] theorem mkeys_cons {V : Type} (a : String) (b : V) (m : List (String × V)) :
    mkeys ((a, b) :: m) = a :: mkeys m := rfl

theorem mfind_minsert_self {V : Type} (m : List (String × V)) (k : String) (v : V) :
    mfind (minsert m k v) k = some v := by
  induction m with
  | nil => simp [minsert, mfind]
  | cons hd tl ih =>
      obtain ⟨k', v'⟩ := hd
      by_cases h : k' == k
      · simp [minsert, h, mfind]
      · simp [minsert, h, mfind, ih]

theorem mfind_minsert_ne {V : Type} (m : List (String × V)) (k k' : String) (v : V)
    (h : k' ≠ k) : mfind (minsert m k v) k' = mfind m k' := by
  induction m with
  | nil =>
      have hne : (k == k') = false := by
        simp only [beq_eq_false_iff_ne]
        exact fun hc => h hc.symm
      simp [minsert, mfind, hne]
  | cons hd tl ih =>
      obtain ⟨k0, v0⟩ := hd
      cases h0 : (k0 == k) with
      | true =>
          have hk0 : k0 = k := by simpa using h0
          subst hk0
          have hne : (k0 == k') = false := by
            simp only [beq_eq_false_iff_ne]
            exact fun hc => h hc.symm
          simp [minsert, mfind, h0, hne]
      | false =>
          cases h1 : (k0 == k') with
          | true => simp [minsert, mfind, h0, h1]
          | false => simp [minsert, mfind, h0, h1, ih]

theorem mfind_eq_none_iff {V : Type} (m : List (String × V)) (k : String) :
    mfind m k = none ↔ k ∉ mkeys m := by
  induction m with
  | nil => simp [mfind, mkeys]
  | cons hd tl ih =>
      obtain ⟨k0, v0⟩ := hd
      cases h0 : (k0 == k) with
      | true =>
          have hk0 : k0 = k := by simpa using h0
          subst hk0
          simp [mfind, h0]
      | false =>
          have hne : ¬ k = k0 := fun hc => by subst hc; simp at h0
          simp [mfind, h0, ih, hne]

theorem mkeys_minsert {V : Type} (m : List (String × V)) (k : String) (v : V) :
    mkeys (minsert m k v) =
      if (mfind m k).isSome then mkeys m else mkeys m ++ [k] := by
  induction m with
  | nil => simp [minsert, mfind]
  | cons hd tl ih =>
      obtain ⟨k0, v0⟩ := hd
      cases h0 : (k0 == k) with
      | true =>
          have hk0 : k0 = k := by simpa using h0
          subst hk0
          simp [minsert, mfind, h0]
      | false =>
          by_cases hf : (mfind tl k).isSome
          · simp [minsert, mfind, h0, ih, hf]
          · simp [minsert, mfind, h0, ih, hf]

theorem mkeys_minsert_nodup {V : Type} (m : List (String × V)) (k : String) (v : V)
    (h : (mkeys m).Nodup) : (mkeys (minsert m k v)).Nodup := by
  rw [mkeys_minsert]
  by_cases hf : (mfind m k).isSome
  · simpa [hf] using h
  · have hnotin : k ∉ mkeys m := by
      rw [← mfind_eq_none_iff]
      cases hc : mfind m k with
      | none => rfl
      | some v' => simp [hc] at hf
    simp [hf, List.nodup_append, h, hnotin]

theorem mfind_mfilter {V : Type} (p : String × V → Bool) (m : List (String × V))
    (h : (mkeys m).Nodup) (k : String) :
    mfind (m.filter p) k =
      match mfind m k with
      | some v => if p (k, v) then some v else none
      | none => none := by
  induction m with
  | nil => simp [mfind]
  | cons hd tl ih =>
      obtain ⟨k0, v0⟩ := hd
      simp only [mkeys, List.map_cons, List.nodup_cons] at h
      have htl := ih h.2
      cases h0 : (k0 == k) with
      | true =>
          have hk0 : k0 = k := by simpa using h0
          subst hk0
          by_cases hp : p (k0, v0) = true
          · simp [List.filter_cons, hp, mfind, h0]
          · have hnone : mfind tl k0 = none := (mfind_eq_none_iff tl k0).2 h.1
            simp [List.filter_cons, hp, mfind, h0, htl, hnone]
      | false =>
          by_cases hp : p (k0, v0) = true
          · simp [List.filter_cons, hp, mfind, h0, htl]
          · simp [List.filter_cons, hp, mfind, h0, htl]


/-! ### Lemmas about TorConfig operations -/

theorem firstLowerMatch_spec (keys : List String) (name x : String)
    (h : firstLowerMatch keys name = some x) : lcStr x = lcStr name := by
  have := List.find?_some h
  simpa using this

theorem firstLowerMatch_congr (keys : List String) (a b : String)
    (h : lcStr a = lcStr b) : firstLowerMatch keys a = firstLowerMatch keys b := by
  unfold firstLowerMatch
  congr 1
  funext y
  rw [h]

theorem firstLowerMatch_append_left (keys more : List String) (name x : String)
    (h : firstLowerMatch keys name = some x) :
    firstLowerMatch (keys ++ more) name = some x := by
  unfold firstLowerMatch at h ⊢
  rw [List.find?_append, h]
  rfl

theorem findRealName_idem (c : TorConfig) (name : String) :
    c.findRealName (c.findRealName name) = c.findRealName name := by
  unfold TorConfig.findRealName
  cases hf : firstLowerMatch (mkeys c.parsers ++ mkeys c.config) name with
  | none => simp [hf]
  | some x =>
      have hlc : lcStr x = lcStr name := firstLowerMatch_spec _ _ _ hf
      have hx : firstLowerMatch (mkeys c.parsers ++ mkeys c.config) x
          = firstLowerMatch (mkeys c.parsers ++ mkeys c.config) name :=
        firstLowerMatch_congr _ _ _ hlc
      simp [hf, hx]

theorem markUnsaved_shape (c : TorConfig) (name : String) :
    ∃ u, c.markUnsaved name = { c with unsaved := u } := by
  unfold TorConfig.markUnsaved
  by_cases hcond :
      ((mfind c.config (c.findRealName name)).isSome
        && (mfind c.unsaved (c.findRealName name)).isNone) = true
  · rw [if_pos hcond]
    cases hv : mfind c.config (c.findRealName (c.findRealName name)) with
    | none => exact ⟨c.unsaved, rfl⟩
    | some v => exact ⟨minsert c.unsaved (c.findRealName name) v, rfl⟩
  · rw [if_neg hcond]
    exact ⟨c.unsaved, rfl⟩

theorem markUnsaved_config (c : TorConfig) (name : String) :
    (c.markUnsaved name).config = c.config := by
  obtain ⟨u, hu⟩ := markUnsaved_shape c name
  rw [hu]

theorem markUnsaved_findRealName (c : TorConfig) (name x : String) :
    (c.markUnsaved name).findRealName x = c.findRealName x := by
  obtain ⟨u, hu⟩ := markUnsaved_shape c name
  rw [hu]
  unfold TorConfig.findRealName
  rfl

theorem markUnsaved_staged_mono (c : TorConfig) (name k : String)
    (h : (mfind c.unsaved k).isSome = true) :
    (mfind (c.markUnsaved name).unsaved k).isSome = true := by
  unfold TorConfig.markUnsaved
  by_cases hcond :
      ((mfind c.config (c.findRealName name)).isSome
        && (mfind c.unsaved (c.findRealName name)).isNone) = true
  · rw [if_pos hcond]
    cases hv : mfind c.config (c.findRealName (c.findRealName name)) with
    | none => exact h
    | some v =>
        by_cases hk : k = c.findRealName name
        · subst hk
          simp [mfind_minsert_self]
        · simpa [mfind_minsert_ne c.unsaved _ k v hk] using h
  · rw [if_neg hcond]
    exact h

theorem markUnsaved_stage_now (c : TorConfig) (rn : String)
    (hrn : c.findRealName rn = rn)
    (hcfg : (mfind c.config rn).isSome = true) :
    (mfind (c.markUnsaved rn).unsaved rn).isSome = true := by
  unfold TorConfig.markUnsaved
  simp only [hrn]
  by_cases hstaged : (mfind c.unsaved rn).isSome = true
  · have hc : ((mfind c.config rn).isSome && (mfind c.unsaved rn).isNone) = false := by
      cases hx : mfind c.unsaved rn with
      | none => simp [hx] at hstaged
      | some v => simp [hx]
    rw [hc]
    simpa using hstaged
  · have hnone : (mfind c.unsaved rn).isNone = true := by
      cases hx : mfind c.unsaved rn with
      | none => rfl
      | some v => simp [hx] at hstaged
    have hc : ((mfind c.config rn).isSome && (mfind c.unsaved rn).isNone) = true := by
      rw [hcfg, hnone]
      rfl
    rw [hc]
    simp only [if_pos]
    cases hv : mfind c.config rn with
    | none => simp [hv] at hcfg
    | some v => simp [hv, mfind_minsert_self]

theorem mfind_some_length_pos {V : Type} (m : List (String × V)) (k : String)
    (h : (mfind m k).isSome = true) : 0 < m.length := by
  cases m with
  | nil => simp [mfind] at h
  | cons hd tl => simp

/-! ### Claim C10 -/

/-- Claim C10 (confirmed): `mark_unsaved(name)` touches at most the staged
entry for the case-normalized name: every other field of the configuration is
unchanged, other staged names are unchanged, the committed value is copied
into `staged` exactly when the name is committed and not already staged, and
when the name is already staged or not committed the whole state is unchanged
— repeated mutation notifications never overwrite an already-staged value. -/
theorem c10_markUnsaved_frame (c : TorConfig) (name : String) :
    (c.markUnsaved name).config = c.config
      ∧ (c.markUnsaved name).parsers = c.parsers
      ∧ (c.markUnsaved name).listParsers = c.listParsers
      ∧ (c.markUnsaved name).slutty = c.slutty
      ∧ (c.markUnsaved name).hasProtocol = c.hasProtocol
      ∧ (c.markUnsaved name).supportsGR = c.supportsGR
      ∧ (∀ m, m ≠ c.findRealName name →
          mfind (c.markUnsaved name).unsaved m = mfind c.unsaved m)
      ∧ mfind (c.markUnsaved name).unsaved (c.findRealName name) =
          (if (mfind c.config (c.findRealName name)).isSome
              && (mfind c.unsaved (c.findRealName name)).isNone
           then mfind c.config (c.findRealName name)
           else mfind c.unsaved (c.findRealName name))
      ∧ ((mfind c.unsaved (c.findRealName name)).isSome = true → c.markUnsaved name = c)
      ∧ ((mfind c.config (c.findRealName name)).isNone = true → c.markUnsaved name = c) := by
  obtain ⟨u, hu⟩ := markUnsaved_shape c name
  refine ⟨by rw [hu], by rw [hu], by rw [hu], by rw [hu], by rw [hu], by rw [hu], ?_, ?_, ?_, ?_⟩
  · intro m hm
    unfold TorConfig.markUnsaved
    by_cases hcond :
        ((mfind c.config (c.findRealName name)).isSome
          && (mfind c.unsaved (c.findRealName name)).isNone) = true
    · rw [if_pos hcond]
      cases hv : mfind c.config (c.findRealName (c.findRealName name)) with
      | none => rfl
      | some v => simpa using mfind_minsert_ne c.unsaved _ m v hm
    · rw [if_neg hcond]
  · unfold TorConfig.markUnsaved
    by_cases hcond :
        ((mfind c.config (c.findRealName name)).isSome
          && (mfind c.unsaved (c.findRealName name)).isNone) = true
    · rw [if_pos hcond, if_pos hcond]
      rw [findRealName_idem]
      cases hv : mfind c.config (c.findRealName name) with
      | none => simp [hv] at hcond
      | some v => simp [mfind_minsert_self]
    · rw [if_neg hcond, if_neg hcond]
  · intro hstaged
    unfold TorConfig.markUnsaved
    have : ((mfind c.config (c.findRealName name)).isSome
        && (mfind c.unsaved (c.findRealName name)).isNone) = false := by
      cases hx : mfind c.unsaved (c.findRealName name) with
      | none => simp [hx] at hstaged
      | some v => simp [hx]
    rw [this]
    simp
  · intro hnone
    unfold TorConfig.markUnsaved
    have : ((mfind c.config (c.findRealName name)).isSome
        && (mfind c.unsaved (c.findRealName name)).isNone) = false := by
      cases hx : mfind c.config (c.findRealName name) with
      | none => simp [hx]
      | some v => simp [hx] at hnone
    rw [this]
    simp

/-- Witness for C10 at a concrete config: staging `foo` (real name `Foo`)
copies the committed value, leaves the other staged name alone, and a second
`mark_unsaved` does not overwrite. -/
theorem c10_markUnsaved_witness :
    mfind (c10ex.markUnsaved "foo").unsaved "Other" = mfind c10ex.unsaved "Other"
      ∧ mfind (c10ex.markUnsaved "foo").unsaved (c10ex.findRealName "foo") =
          mfind c10ex.config (c10ex.findRealName "foo")
      ∧ ((c10ex.markUnsaved "foo").markUnsaved "foo") = c10ex.markUnsaved "foo" := by
  have h := c10_markUnsaved_frame c10ex "foo"
  have h2 := c10_markUnsaved_frame (c10ex.markUnsaved "foo") "foo"
  refine ⟨?_, ?_, ?_⟩
  · exact h.2.2.2.2.2.2.1 "Other" (by decide)
  · have := h.2.2.2.2.2.2.2.1
    rwa [if_pos (by decide)] at this
  · exact h2.2.2.2.2.2.2.2.2.1 (by decide)

/-! ### Claim C1 -/

/-- Counterexample to claim C1 as stated: in this attached `TorConfig`
(constructed with a control connection, so `_slutty_` is absent) the option
`foo` is present in the staged map with value `"staged"`, yet reading it
returns the committed value `"committed"`, not the staged one. -/
theorem c1_read_counterexample :
    (c1ex.getAttr "foo").1 = some (CVal.str "committed")
      ∧ mfind c1ex.unsaved (c1ex.findRealName "foo") = some (CVal.str "staged")
      ∧ c1ex.slutty = false ∧ c1ex.hasProtocol = true := by
  decide

/-- Claim C1 (corrected): a read returns the staged value only when the
config is in detached (`_slutty_`) mode and the real name is staged; in every
other case — in particular whenever the config was attached at construction
or via `attach_protocol`, which clears `_slutty_` — the read returns exactly
what it would return with an empty staged map, i.e. the committed value.
A detached client that writes an option does read back its staged value. -/
theorem c1_read_staged_amended (c : TorConfig) (name : String) :
    ((c.getAttr name).1 =
        (if c.slutty && (mfind c.unsaved (c.findRealName name)).isSome
         then mfind c.unsaved (c.findRealName name)
         else ({ c with unsaved := [] }.getAttr name).1))
      ∧ (∀ v c', c.slutty = true → c.setAttr name v = .ok c' →
          (c'.getAttr name).1 = some v) := by
  constructor
  · have hrn : ({ c with unsaved := ([] : List (String × CVal)) } : TorConfig).findRealName name
        = c.findRealName name := rfl
    unfold TorConfig.getAttr
    cases hcond : (c.slutty && (mfind c.unsaved (c.findRealName name)).isSome) with
    | true => simp [hcond, hrn]
    | false =>
        have hnone :
            (({ c with unsaved := ([] : List (String × CVal)) } : TorConfig).slutty
              && (mfind ([] : List (String × CVal))
                    (c.findRealName name)).isSome) = false := by
          simp [mfind]
        simp only [hcond, hrn, hnone, Bool.false_eq_true, if_false]
        unfold TorConfig.maybeCreateListwrapper
        split <;> rfl
  · intro v c' hslutty hset
    have hcondf : (!c.slutty && !(lcStr (c.findRealName name) == "hiddenservices")) = false := by
      rw [hslutty]
      rfl
    unfold TorConfig.setAttr at hset
    rw [hcondf] at hset
    simp only [Bool.false_eq_true, if_false] at hset
    cases hset
    have hrn : ({ c with unsaved := minsert c.unsaved (c.findRealName name) v }
        : TorConfig).findRealName name = c.findRealName name := rfl
    unfold TorConfig.getAttr
    rw [hrn, hslutty]
    simp [mfind_minsert_self]

/-- Witness for the corrected C1: a detached config stages a write and reads
it back; the same read on the attached `c1ex` goes to the committed value. -/
theorem c1_read_witness :
    (c1ex.getAttr "foo").1 = ({ c1ex with unsaved := [] }.getAttr "foo").1
      ∧ (∀ c', TorConfig.setAttr { c1ex with slutty := true } "foo" (CVal.str "w") = .ok c' →
          (c'.getAttr "foo").1 = some (CVal.str "w")) := by
  constructor
  · have h := (c1_read_staged_amended c1ex "foo").1
    rwa [if_neg (by decide)] at h
  · intro c' hset
    exact (c1_read_staged_amended { c1ex with slutty := true } "foo").2
      (CVal.str "w") c' rfl hset

/-! ### Claim C2 -/

theorem savePromote_find_notin (pn : List String) (pending : List (String × CVal))
    (hk : ∀ k ∈ mkeys pending, k = "HiddenServices" ∨ firstLowerMatch pn k = some k) :
    ∀ cfg k, k ∉ mkeys pending → mfind (savePromote pn cfg pending) k = mfind cfg k := by
  induction pending with
  | nil => intro cfg k _; rfl
  | cons hd rest ih =>
      obtain ⟨k0, v0⟩ := hd
      intro cfg k hnot
      have hk0 : k0 = "HiddenServices" ∨ firstLowerMatch pn k0 = some k0 :=
        hk k0 (by simp)
      have hkrest : ∀ k' ∈ mkeys rest,
          k' = "HiddenServices" ∨ firstLowerMatch pn k' = some k' := by
        intro k' hk'
        exact hk k' (by simp [hk'])
      have hkne : k ≠ k0 := by
        intro hc
        subst hc
        exact hnot (by simp)
      have hknotrest : k ∉ mkeys rest := by
        intro hc
        exact hnot (by simp [hc])
      cases hhs : (k0 == "HiddenServices") with
      | true =>
          have hk0hs : k0 = "HiddenServices" := by simpa using hhs
          unfold savePromote
          rw [hhs]
          simp only [if_pos]
          rw [ih hkrest _ k hknotrest]
          rw [← hk0hs]
          exact mfind_minsert_ne cfg k0 k v0 hkne
      | false =>
          have hflm : firstLowerMatch pn k0 = some k0 := by
            rcases hk0 with h | h
            · exfalso
              rw [h] at hhs
              simp at hhs
            · exact h
          have hik : (firstLowerMatch (pn ++ mkeys cfg) k0).getD k0 = k0 := by
            rw [firstLowerMatch_append_left pn (mkeys cfg) k0 k0 hflm]
            rfl
          unfold savePromote
          rw [hhs]
          simp only [Bool.false_eq_true, if_false]
          rw [hik]
          rw [ih hkrest _ k hknotrest]
          exact mfind_minsert_ne cfg k0 k v0 hkne

theorem savePromote_find_mem (pn : List String) (pending : List (String × CVal))
    (hk : ∀ k ∈ mkeys pending, k = "HiddenServices" ∨ firstLowerMatch pn k = some k)
    (hnd : (mkeys pending).Nodup) :
    ∀ cfg k v, mfind pending k = some v →
      mfind (savePromote pn cfg pending) k = some v := by
  induction pending with
  | nil => intro cfg k v hfind; simp [mfind] at hfind
  | cons hd rest ih =>
      obtain ⟨k0, v0⟩ := hd
      intro cfg k v hfind
      have hk0 : k0 = "HiddenServices" ∨ firstLowerMatch pn k0 = some k0 :=
        hk k0 (by simp)
      have hkrest : ∀ k' ∈ mkeys rest,
          k' = "HiddenServices" ∨ firstLowerMatch pn k' = some k' := by
        intro k' hk'
        exact hk k' (by simp [hk'])
      have hndrest : (mkeys rest).Nodup := by
        simp only [mkeys_cons, List.nodup_cons] at hnd
        exact hnd.2
      have hk0notrest : k0 ∉ mkeys rest := by
        simp only [mkeys_cons, List.nodup_cons] at hnd
        exact hnd.1
      have hik : (if (k0 == "HiddenServices") = true then "HiddenServices"
          else (firstLowerMatch (pn ++ mkeys cfg) k0).getD k0) = k0 := by
        cases hhs : (k0 == "HiddenServices") with
        | true => simp [by simpa using hhs]
        | false =>
            have hflm : firstLowerMatch pn k0 = some k0 := by
              rcases hk0 with h | h
              · exfalso; rw [h] at hhs; simp at hhs
              · exact h
            simp only [Bool.false_eq_true, if_false]
            rw [firstLowerMatch_append_left pn (mkeys cfg) k0 k0 hflm]
            rfl
      cases heq : (k0 == k) with
      | true =>
          have hkk : k0 = k := by simpa using heq
          subst hkk
          have hv : v = v0 := by
            unfold mfind at hfind
            rw [heq] at hfind
            simp at hfind
            exact hfind.symm
          subst hv
          cases hhs : (k0 == "HiddenServices") with
          | true =>
              unfold savePromote
              rw [hhs]
              simp only [if_pos]
              rw [savePromote_find_notin pn rest hkrest _ k0 hk0notrest]
              have hk0hs : k0 = "HiddenServices" := by simpa using hhs
              rw [← hk0hs]
              exact mfind_minsert_self cfg k0 v
          | false =>
              unfold savePromote
              rw [hhs]
              simp only [Bool.false_eq_true, if_false]
              have hflm : firstLowerMatch pn k0 = some k0 := by
                rcases hk0 with h | h
                · exfalso; rw [h] at hhs; simp at hhs
                · exact h
              rw [show (firstLowerMatch (pn ++ mkeys cfg) k0).getD k0 = k0 from by
                rw [firstLowerMatch_append_left pn (mkeys cfg) k0 k0 hflm]; rfl]
              rw [savePromote_find_notin pn rest hkrest _ k0 hk0notrest]
              exact mfind_minsert_self cfg k0 v
      | false =>
          have hrest : mfind rest k = some v := by
            unfold mfind at hfind
            rw [heq] at hfind
            simpa using hfind
          cases hhs : (k0 == "HiddenServices") with
          | true =>
              unfold savePromote
              rw [hhs]
              simp only [if_pos]
              exact ih hkrest hndrest _ k v hrest
          | false =>
              unfold savePromote
              rw [hhs]
              simp only [Bool.false_eq_true, if_false]
              exact ih hkrest hndrest _ k v hrest

/-- Counterexample to claim C2 as stated: on this attached config a `save`
the daemon refuses still rewrites the committed map — `foo` was committed as
`"1"` before the call and is committed as `"2"` after the failed save (the
staged map alone is preserved). -/
theorem c2_save_counterexample :
    (c2ex.save false).ok = false
      ∧ mfind c2ex.config "foo" = some (CVal.str "1")
      ∧ mfind (c2ex.save false).conf.config "foo" = some (CVal.str "2")
      ∧ (c2ex.save false).conf.unsaved = c2ex.unsaved := by
  decide

/-- Claim C2 (corrected): `save` writes every staged entry into the committed
map before issuing SETCONF, so the committed map reflects the staged values
whether or not the daemon accepts; what the daemon's answer decides is only
the staged map — kept intact when the SETCONF fails and cleared when it
succeeds (or when there is no protocol).  The hypotheses say the staged keys
are canonical (as `__setattr__` and `mark_unsaved` make them) and distinct. -/
theorem c2_save_amended (c : TorConfig) (accepts : Bool)
    (hk : ∀ k ∈ mkeys c.unsaved,
        k = "HiddenServices" ∨ firstLowerMatch (mkeys c.parsers) k = some k)
    (hnd : (mkeys c.unsaved).Nodup) :
    (c.save accepts).conf.unsaved = (if c.hasProtocol && !accepts then c.unsaved else [])
      ∧ (∀ k v, mfind c.unsaved k = some v →
          mfind (c.save accepts).conf.config k = some v)
      ∧ (c.save accepts).ok = (accepts || !c.hasProtocol || !c.needsSave) := by
  by_cases hns : c.needsSave = false
  · have hempty : c.unsaved = [] := by
      unfold TorConfig.needsSave at hns
      simpa using List.eq_nil_of_length_eq_zero (by simpa using hns)
    unfold TorConfig.save
    rw [if_pos hns]
    refine ⟨by simp [hempty], ?_, by simp [hns]⟩
    intro k v hfind
    rw [hempty] at hfind
    simp [mfind] at hfind
  · have hns' : c.needsSave = true := by
      cases h : c.needsSave with
      | false => exact absurd h hns
      | true => rfl
    unfold TorConfig.save
    rw [if_neg hns]
    have hpromote : ∀ k v, mfind c.unsaved k = some v →
        mfind (savePromote (mkeys c.parsers) c.config c.unsaved) k = some v :=
      fun k v h => savePromote_find_mem (mkeys c.parsers) c.unsaved hk hnd c.config k v h
    cases hp : c.hasProtocol with
    | true =>
        cases ha : accepts with
        | true => exact ⟨by simp [hp, ha], fun k v h => hpromote k v h, by simp [hp, ha]⟩
        | false => exact ⟨by simp [hp, ha], fun k v h => hpromote k v h, by simp [hp, ha, hns']⟩
    | false =>
        exact ⟨by simp [hp], fun k v h => hpromote k v h, by simp [hp]⟩

/-- Witness for the corrected C2: a successful save on a concrete config
promotes both staged entries and clears the staged map. -/
theorem c2_save_witness :
    mfind (c2exW.save true).conf.config "Bar" = some (CVal.str "5")
      ∧ mfind (c2exW.save true).conf.config "Baz" = some (CVal.str "6")
      ∧ (c2exW.save true).conf.unsaved = []
      ∧ (c2exW.save true).ok = true := by
  have h := c2_save_amended c2exW true (by decide) (by decide)
  refine ⟨?_, ?_, ?_, ?_⟩
  · exact h.2.1 "Bar" (CVal.str "5") (by decide)
  · exact h.2.1 "Baz" (CVal.str "6") (by decide)
  · simpa using h.1
  · simpa using h.2.2

/-! ### Claim C8 -/

theorem confChanged_frame (c : TorConfig) (pairs : List (String × String)) :
    (c.confChanged pairs).unsaved = c.unsaved
      ∧ (c.confChanged pairs).parsers = c.parsers
      ∧ (c.confChanged pairs).slutty = c.slutty := by
  induction pairs generalizing c with
  | nil => exact ⟨rfl, rfl, rfl⟩
  | cons p rest ih =>
      obtain ⟨k, v⟩ := p
      have hstep : c.confChanged ((k, v) :: rest)
          = TorConfig.confChanged
              { c with config := minsert c.config (c.findRealName k) (CVal.str v) } rest := by
        unfold TorConfig.confChanged
        rfl
      rw [hstep]
      exact ih _

/-- Counterexample to claim C8 as stated: `c8ex` knows only the option `Foo`;
a CONF_CHANGED pair for the unknown keyword `zzz` is not ignored — it creates
a committed entry under the literal keyword. -/
theorem c8_conf_changed_counterexample :
    mfind c8ex.config "zzz" = none
      ∧ mfind c8ex.parsers "zzz" = none
      ∧ mfind (c8ex.confChanged [("zzz", "9")]).config "zzz" = some (CVal.str "9") := by
  decide

/-- Claim C8 (corrected): every CONF_CHANGED pair updates the committed map
only (the staged map and everything else are untouched); a keyword naming a
known option updates the committed entry under its canonical name, while an
unknown keyword is not ignored — `_find_real_name` falls back to the keyword
itself and a new committed entry is created under it. -/
theorem c8_conf_changed_amended (c : TorConfig) (k v : String)
    (pairs : List (String × String)) :
    ((c.confChanged pairs).unsaved = c.unsaved)
      ∧ ((c.confChanged pairs).parsers = c.parsers)
      ∧ ((c.confChanged pairs).slutty = c.slutty)
      ∧ (firstLowerMatch (mkeys c.parsers ++ mkeys c.config) k = none →
          mfind (c.confChanged [(k, v)]).config k = some (CVal.str v))
      ∧ (∀ x, firstLowerMatch (mkeys c.parsers ++ mkeys c.config) k = some x →
          mfind (c.confChanged [(k, v)]).config x = some (CVal.str v)) := by
  have hframe := confChanged_frame c pairs
  have hone : (c.confChanged [(k, v)]).config
      = minsert c.config (c.findRealName k) (CVal.str v) := by
    unfold TorConfig.confChanged
    rfl
  refine ⟨hframe.1, hframe.2.1, hframe.2.2, ?_, ?_⟩
  · intro hnone
    have hrn : c.findRealName k = k := by
      unfold TorConfig.findRealName
      rw [hnone]
      rfl
    rw [hone, hrn]
    exact mfind_minsert_self c.config k (CVal.str v)
  · intro x hx
    have hrn : c.findRealName k = x := by
      unfold TorConfig.findRealName
      rw [hx]
      rfl
    rw [hone, hrn]
    exact mfind_minsert_self c.config x (CVal.str v)

/-- Witness for the corrected C8: an unknown keyword lands verbatim in the
committed map, a known keyword updates its canonical slot, and the staged map
is untouched by both. -/
theorem c8_conf_changed_witness :
    mfind (c8ex.confChanged [("zzy", "9")]).config "zzy" = some (CVal.str "9")
      ∧ mfind (c8ex.confChanged [("foo", "7")]).config "Foo" = some (CVal.str "7")
      ∧ (c8ex.confChanged [("zzy", "9"), ("foo", "7")]).unsaved = c8ex.unsaved := by
  refine ⟨?_, ?_, ?_⟩
  · exact (c8_conf_changed_amended c8ex "zzy" "9" []).2.2.2.1 (by decide)
  · exact (c8_conf_changed_amended c8ex "foo" "7" []).2.2.2.2 "Foo" (by decide)
  · exact (c8_conf_changed_amended c8ex "x" "y" [("zzy", "9"), ("foo", "7")]).1

/-! ### Claim C4 -/

/-- Counterexample to claim C4 as stated: `sort` is among the mutating
operations the claim lists, but `_ListWrapper` does not wrap it, so a
one-element mutation sequence consisting of `sort` applied through the
exposed handle of the committed list option leaves `needs_save` false. -/
theorem c4_list_counterexample :
    wrappedOp ListOp.sort = false
      ∧ (applyListOps c4ex "SOCKSPort" ["9051", "9050"] [ListOp.sort]).1.needsSave = false := by
  refine ⟨rfl, ?_⟩
  decide

/-- Claim C4 (corrected): the operations `_ListWrapper` wraps are
assign-at-index, slice-replace, append, extend, insert, remove and pop —
`sort` and `reverse` are not wrapped (and Python 2 lists have no `clear`).
Every wrapped operation calls `on_modify` (i.e. `mark_unsaved`) before
delegating, so any non-empty sequence of wrapped mutations through the
exposed handle of a committed list-valued option leaves the name staged and
`needs_save` true, without touching the committed map. -/
theorem c4_list_mutations_amended (c : TorConfig) (rn : String) (xs : List String)
    (ops : List ListOp)
    (hne : ops ≠ [])
    (hw : ∀ op ∈ ops, wrappedOp op = true)
    (hrn : c.findRealName rn = rn)
    (hcfg : (mfind c.config rn).isSome = true) :
    (applyListOps c rn xs ops).1.needsSave = true
      ∧ (mfind (applyListOps c rn xs ops).1.unsaved rn).isSome = true
      ∧ (applyListOps c rn xs ops).1.config = c.config := by
  induction ops generalizing c xs with
  | nil => exact absurd rfl hne
  | cons op rest ih =>
      have hwop : wrappedOp op = true := hw op (List.mem_cons_self op rest)
      have hstep : applyListOps c rn xs (op :: rest)
          = applyListOps (c.markUnsaved rn) rn (listDelegate op xs) rest := by
        show applyListOps (if wrappedOp op then c.markUnsaved rn else c) rn
            (listDelegate op xs) rest
          = applyListOps (c.markUnsaved rn) rn (listDelegate op xs) rest
        rw [hwop, if_pos rfl]
      rw [hstep]
      have hcfg' : (mfind (c.markUnsaved rn).config rn).isSome = true := by
        rw [markUnsaved_config]
        exact hcfg
      have hrn' : (c.markUnsaved rn).findRealName rn = rn := by
        rw [markUnsaved_findRealName]
        exact hrn
      have hstaged : (mfind (c.markUnsaved rn).unsaved rn).isSome = true :=
        markUnsaved_stage_now c rn hrn hcfg
      cases rest with
      | nil =>
          refine ⟨?_, ?_, ?_⟩
          · unfold applyListOps TorConfig.needsSave
            simpa using mfind_some_length_pos _ rn hstaged
          · exact hstaged
          · unfold applyListOps
            exact markUnsaved_config c rn
      | cons op2 rest2 =>
          have hwrest : ∀ o ∈ op2 :: rest2, wrappedOp o = true := by
            intro o ho
            exact hw o (List.mem_cons_of_mem op ho)
          have hres := ih (c.markUnsaved rn) (listDelegate op xs) (by simp) hwrest
            hrn' hcfg'
          refine ⟨hres.1, hres.2.1, ?_⟩
          rw [hres.2.2]
          exact markUnsaved_config c rn

/-- Witness for the corrected C4: appending to the exposed list of
`SOCKSPort` stages the option and flips `needs_save` to true while the
committed map is unchanged. -/
theorem c4_list_mutations_witness :
    (applyListOps c4ex "SOCKSPort" ["9051", "9050"] [ListOp.append "1"]).1.needsSave = true
      ∧ (applyListOps c4ex "SOCKSPort" ["9051", "9050"]
          [ListOp.append "1"]).1.config = c4ex.config := by
  have h := c4_list_mutations_amended c4ex "SOCKSPort" ["9051", "9050"]
    [ListOp.append "1"] (by simp) (by intro op hop; simp at hop; rw [hop]; rfl)
    (by decide) (by decide)
  exact ⟨h.1, h.2.2⟩

/-! ### Claim C9 -/

/-- Counterexample to claim C9 as stated: the host `www.exit.com` does not
end with `.exit`, yet the bridge ignores the stream (the attacher is not
invoked and nothing is queued), because the source tests substring
containment of `.exit`, not a suffix. -/
theorem c9_exit_counterexample :
    (maybeAttach true (some "www.exit.com") 1 [] AttacherReturn.torChooses).attacherInvoked
        = false
      ∧ (maybeAttach true (some "www.exit.com") 1 [] AttacherReturn.torChooses).cmds = []
      ∧ strEndsWith "www.exit.com" ".exit" = false
      ∧ strContainsSub "www.exit.com" ".exit" = true := by
  decide

/-- Claim C9 (corrected): with an attacher registered, a new stream is
ignored (attacher not invoked, nothing queued, nothing raised) exactly when
its target host is present and contains `.exit` as a substring — not only
when it ends with `.exit`; in every other case the attacher is invoked. -/
theorem c9_exit_amended (targetHost : Option String) (sid : Nat)
    (circuitIds : List Nat) (ret : AttacherReturn) :
    ((maybeAttach true targetHost sid circuitIds ret).attacherInvoked =
        !(match targetHost with
          | some h => strContainsSub h ".exit"
          | none => false))
      ∧ ((match targetHost with
          | some h => strContainsSub h ".exit"
          | none => false) = true →
          maybeAttach true targetHost sid circuitIds ret = ⟨false, [], none⟩) := by
  constructor
  · unfold maybeAttach
    cases hig : (match targetHost with
        | some h => strContainsSub h ".exit"
        | none => false) with
    | true => rfl
    | false =>
        cases ret with
        | doNotAttach => rfl
        | torChooses => rfl
        | circuitLater c => rfl
        | circuitNow c =>
            show (if (!circuitIds.contains c.id) = true then
                (⟨true, [], some "Attacher returned a circuit unknown to me."⟩ : AttachOutcome)
              else if (!(c.state == "BUILT")) = true then
                ⟨true, [], some "Can only attach to BUILT circuits."⟩
              else
                ⟨true, ["ATTACHSTREAM " ++ toString sid ++ " " ++ toString c.id],
                  none⟩).attacherInvoked = !false
            split
            · rfl
            · split <;> rfl
  · intro hig
    unfold maybeAttach
    rw [hig]
    rfl

/-- Witness for the corrected C9: a host without `.exit` reaches the
attacher; a host ending in `.exit` is ignored with no command and no error. -/
theorem c9_exit_witness :
    (maybeAttach true (some "example.com") 2 [] AttacherReturn.torChooses).attacherInvoked
        = true
      ∧ maybeAttach true (some "foo.exit") 2 [] AttacherReturn.torChooses = ⟨false, [], none⟩ := by
  constructor
  · rw [(c9_exit_amended (some "example.com") 2 [] AttacherReturn.torChooses).1]
    decide
  · exact (c9_exit_amended (some "foo.exit") 2 [] AttacherReturn.torChooses).2 (by decide)

/-! ### Claim C3 -/

/-- Counterexample to claim C3 as stated: the attacher returns a pending
handle that resolves to circuit 5 in state `EXTENDED`, not tracked in the
circuits map — yet `ATTACHSTREAM 3 5` is issued and no precondition error is
raised. -/
theorem c3_deferred_counterexample :
    maybeAttach true (some "example.com") 3 []
        (AttacherReturn.circuitLater ⟨5, "EXTENDED"⟩)
      = ⟨true, ["ATTACHSTREAM 3 5"], none⟩ := by
  decide

/-- Claim C3 (corrected): when the attacher's pending handle resolves to a
circuit, `IssueStreamAttach` queues `ATTACHSTREAM <sid> <cid>` unconditionally
— whatever the circuit's state and whether or not it is tracked; the
tracked-and-`BUILT` precondition checks are applied only to a circuit the
attacher returns synchronously. -/
theorem c3_attach_amended (sid : Nat) (circuitIds : List Nat) (c : CircuitRec) :
    (maybeAttach true none sid circuitIds (AttacherReturn.circuitLater c)
        = ⟨true, ["ATTACHSTREAM " ++ toString sid ++ " " ++ toString c.id], none⟩)
      ∧ (circuitIds.contains c.id = false →
          maybeAttach true none sid circuitIds (AttacherReturn.circuitNow c)
            = ⟨true, [], some "Attacher returned a circuit unknown to me."⟩)
      ∧ (circuitIds.contains c.id = true → (c.state == "BUILT") = false →
          maybeAttach true none sid circuitIds (AttacherReturn.circuitNow c)
            = ⟨true, [], some "Can only attach to BUILT circuits."⟩)
      ∧ (circuitIds.contains c.id = true → (c.state == "BUILT") = true →
          maybeAttach true none sid circuitIds (AttacherReturn.circuitNow c)
            = ⟨true, ["ATTACHSTREAM " ++ toString sid ++ " " ++ toString c.id], none⟩) := by
  refine ⟨rfl, ?_, ?_, ?_⟩
  · intro h1
    show (if (!circuitIds.contains c.id) = true then
        (⟨true, [], some "Attacher returned a circuit unknown to me."⟩ : AttachOutcome)
      else if (!(c.state == "BUILT")) = true then
        ⟨true, [], some "Can only attach to BUILT circuits."⟩
      else ⟨true, ["ATTACHSTREAM " ++ toString sid ++ " " ++ toString c.id], none⟩)
      = ⟨true, [], some "Attacher returned a circuit unknown to me."⟩
    rw [h1]
    rfl
  · intro h1 h2
    show (if (!circuitIds.contains c.id) = true then
        (⟨true, [], some "Attacher returned a circuit unknown to me."⟩ : AttachOutcome)
      else if (!(c.state == "BUILT")) = true then
        ⟨true, [], some "Can only attach to BUILT circuits."⟩
      else ⟨true, ["ATTACHSTREAM " ++ toString sid ++ " " ++ toString c.id], none⟩)
      = ⟨true, [], some "Can only attach to BUILT circuits."⟩
    rw [h1, h2]
    rfl
  · intro h1 h2
    show (if (!circuitIds.contains c.id) = true then
        (⟨true, [], some "Attacher returned a circuit unknown to me."⟩ : AttachOutcome)
      else if (!(c.state == "BUILT")) = true then
        ⟨true, [], some "Can only attach to BUILT circuits."⟩
      else ⟨true, ["ATTACHSTREAM " ++ toString sid ++ " " ++ toString c.id], none⟩)
      = ⟨true, ["ATTACHSTREAM " ++ toString sid ++ " " ++ toString c.id], none⟩
    rw [h1, h2]
    rfl

/-- Witness for the corrected C3 on concrete circuits: the deferred path
attaches an untracked `EXTENDED` circuit, while the synchronous path rejects
untracked and non-`BUILT` circuits and attaches a tracked `BUILT` one. -/
theorem c3_attach_witness :
    maybeAttach true none 7 [4] (AttacherReturn.circuitLater ⟨9, "EXTENDED"⟩)
        = ⟨true, ["ATTACHSTREAM 7 9"], none⟩
      ∧ maybeAttach true none 7 [4] (AttacherReturn.circuitNow ⟨9, "EXTENDED"⟩)
        = ⟨true, [], some "Attacher returned a circuit unknown to me."⟩
      ∧ maybeAttach true none 7 [4] (AttacherReturn.circuitNow ⟨4, "EXTENDED"⟩)
        = ⟨true, [], some "Can only attach to BUILT circuits."⟩
      ∧ maybeAttach true none 7 [4] (AttacherReturn.circuitNow ⟨4, "BUILT"⟩)
        = ⟨true, ["ATTACHSTREAM 7 4"], none⟩ := by
  refine ⟨?_, ?_, ?_, ?_⟩
  · rw [(c3_attach_amended 7 [4] ⟨9, "EXTENDED"⟩).1]
    decide
  · exact (c3_attach_amended 7 [4] ⟨9, "EXTENDED"⟩).2.1 (by decide)
  · exact (c3_attach_amended 7 [4] ⟨4, "EXTENDED"⟩).2.2.1 (by decide) (by decide)
  · have h := (c3_attach_amended 7 [4] ⟨4, "BUILT"⟩).2.2.2 (by decide) (by decide)
    rw [h]
    decide

/-! ### Claim C7 -/

theorem circElem_ok (s : CircSpec) (h : circSpecOk s = true) :
    circElem s = .ok (circSpecHex s) := by
  cases s with
  | router hx => rfl
  | strV sv =>
      have h' : (decide (sv.length = 40) && hashFromHexIdOk sv) = true := h
      have hparts : decide (sv.length = 40) = true ∧ hashFromHexIdOk sv = true := by
        simpa using h'
      have hlen : (sv.length == 40) = true := by
        have := of_decide_eq_true hparts.1
        simpa using this
      show (if (sv.length == 40) = true then
          (if hashFromHexIdOk sv = true then Except.ok sv
           else Except.error "TypeError: non-hexadecimal digit found")
        else Except.error "AttributeError: str object has no attribute id_hex")
        = Except.ok (circSpecHex (CircSpec.strV sv))
      rw [hlen, hparts.2]
      rfl

theorem circElem_attr_error (s : String) (hlen : (s.length == 40) = false) :
    circElem (CircSpec.strV s)
      = .error "AttributeError: str object has no attribute id_hex" := by
  show (if (s.length == 40) = true then
      (if hashFromHexIdOk s = true then Except.ok s
       else Except.error "TypeError: non-hexadecimal digit found")
    else Except.error "AttributeError: str object has no attribute id_hex")
    = Except.error "AttributeError: str object has no attribute id_hex"
  rw [hlen]
  rfl

theorem circElems_ok (rs : List CircSpec) (h : ∀ s ∈ rs, circSpecOk s = true) :
    circElems rs = .ok (rs.map circSpecHex) := by
  induction rs with
  | nil => rfl
  | cons s rest ih =>
      have hs := circElem_ok s (h s (List.mem_cons_self s rest))
      have hrest := ih (fun x hx => h x (List.mem_cons_of_mem s hx))
      unfold circElems
      rw [hs, hrest]
      rfl

/-- Counterexample to claim C7 as stated: a `$`-prefixed 41-character id
string is not accepted with its `$` stripped — it falls into the
`router.id_hex` branch, which on a string raises `AttributeError`, so
`build_circuit` fails instead of issuing a command. -/
theorem c7_build_counterexample :
    dollar41.length = 41
      ∧ strTake dollar41 1 = "$"
      ∧ buildCircuitCmd (some [CircSpec.strV dollar41])
          = .error "AttributeError: str object has no attribute id_hex" := by
  decide

/-- Claim C7 (corrected): `build_circuit` issues `EXTENDCIRCUIT 0` for `None`
or an empty list, and otherwise appends the comma-joined hex fragments where
a `Router` element contributes `id_hex` with its leading `$` stripped and a
string element must be a bare 40-hex id (a `$`-prefixed string raises an
`AttributeError`); a reply `EXTENDED <id>` resolves to that circuit id, and a
two-token reply whose first token is not `EXTENDED` is a protocol error. -/
theorem c7_build_circuit_amended (rs : List CircSpec)
    (hok : ∀ s ∈ rs, circSpecOk s = true) (hne : rs ≠ []) :
    buildCircuitCmd none = .ok "EXTENDCIRCUIT 0"
      ∧ buildCircuitCmd (some []) = .ok "EXTENDCIRCUIT 0"
      ∧ buildCircuitCmd (some rs)
          = .ok ("EXTENDCIRCUIT 0 " ++ joinComma (rs.map circSpecHex))
      ∧ (∀ s : String, s.length ≠ 40 →
          buildCircuitCmd (some [CircSpec.strV s])
            = .error "AttributeError: str object has no attribute id_hex")
      ∧ findCircuitAfterExtend "EXTENDED 7" = .ok 7
      ∧ (∀ r t1 t2 : String, wsSplit r = [t1, t2] → (t1 == "EXTENDED") = false →
          findCircuitAfterExtend r = .error ("Expected EXTENDED, got " ++ r)) := by
  refine ⟨rfl, rfl, ?_, ?_, by decide, ?_⟩
  · cases rs with
    | nil => exact absurd rfl hne
    | cons s rest =>
        show (match circElems (s :: rest) with
          | .error e => (Except.error e : Except String String)
          | .ok parts => .ok ("EXTENDCIRCUIT 0 " ++ joinComma parts))
          = .ok ("EXTENDCIRCUIT 0 " ++ joinComma ((s :: rest).map circSpecHex))
        rw [circElems_ok (s :: rest) hok]
  · intro s hlen
    have hl : (s.length == 40) = false := by
      cases hc : (s.length == 40) with
      | true => exact absurd (by simpa using hc) hlen
      | false => rfl
    have hcs : circElems [CircSpec.strV s]
        = .error "AttributeError: str object has no attribute id_hex" := by
      show (match circElem (CircSpec.strV s) with
        | .error e => (Except.error e : Except String (List String))
        | .ok v =>
            match circElems [] with
            | .error e => .error e
            | .ok ss => .ok (v :: ss))
        = .error "AttributeError: str object has no attribute id_hex"
      rw [circElem_attr_error s hl]
    show (match circElems [CircSpec.strV s] with
      | .error e => (Except.error e : Except String String)
      | .ok parts => .ok ("EXTENDCIRCUIT 0 " ++ joinComma parts))
      = .error "AttributeError: str object has no attribute id_hex"
    rw [hcs]
  · intro r t1 t2 hsplit ht
    unfold findCircuitAfterExtend
    rw [hsplit]
    show (if (t1 == "EXTENDED") = true then
        (match parseNatStr t2 with
         | some n => Except.ok n
         | none => Except.error "ValueError: invalid int")
      else Except.error ("Expected EXTENDED, got " ++ r))
      = Except.error ("Expected EXTENDED, got " ++ r)
    rw [ht]
    rfl

/-- Witness for the corrected C7: a Router with a `$`-prefixed fingerprint
and a bare 40-hex string produce the comma-joined command, and a non-EXTENDED
reply fails. -/
theorem c7_build_circuit_witness :
    buildCircuitCmd (some [CircSpec.router dollar41, CircSpec.strV hex40])
        = .ok ("EXTENDCIRCUIT 0 "
            ++ "AAAAAAAAAAAAAAAAAAAAAAAAAAAAAAAAAAAAAAAA,BBBBBBBBBBBBBBBBBBBBBBBBBBBBBBBBBBBBBBBB")
      ∧ buildCircuitCmd (some [CircSpec.strV dollar41])
          = .error "AttributeError: str object has no attribute id_hex"
      ∧ findCircuitAfterExtend "FAILED 7" = .error "Expected EXTENDED, got FAILED 7" := by
  have h := c7_build_circuit_amended [CircSpec.router dollar41, CircSpec.strV hex40]
    (by decide) (by simp)
  refine ⟨?_, ?_, ?_⟩
  · rw [h.2.2.1]
    decide
  · exact h.2.2.2.1 dollar41 (by decide)
  · exact h.2.2.2.2.2 "FAILED 7" "FAILED" "7" (by decide) (by decide)

/-! ### Claim C5 -/

theorem strMk_toList (s : String) : String.mk s.toList = s := rfl

theorem wordsAux_all_nows (cs : List Char) (hall : ∀ c ∈ cs, c.isWhitespace = false)
    (acc : List Char) (hne : acc ≠ [] ∨ cs ≠ []) :
    wordsAux cs acc = [String.mk (acc.reverse ++ cs)] := by
  induction cs generalizing acc with
  | nil =>
      rcases hne with h | h
      · cases acc with
        | nil => exact absurd rfl h
        | cons a as =>
            simp only [wordsAux]
            simp
      · exact absurd rfl h
  | cons c cs ih =>
      have hc : c.isWhitespace = false := hall c (by simp)
      have hstep : wordsAux (c :: cs) acc = wordsAux cs (c :: acc) := by
        simp only [wordsAux]
        rw [hc]
        rfl
      rw [hstep,
        ih (fun x hx => hall x (by simp [hx])) (c :: acc) (Or.inl (by simp))]
      simp

theorem wsSplit_pre_tok (pre : String) (ch : Char) (hpre : pre.toList = [ch, ' '])
    (hch : ch.isWhitespace = false) (tok : String) (hne : tok.toList ≠ [])
    (hall : ∀ c ∈ tok.toList, c.isWhitespace = false) :
    wsSplit (pre ++ tok) = [String.mk [ch], tok] := by
  show wordsAux (pre.toList ++ tok.toList) [] = [String.mk [ch], tok]
  rw [hpre]
  have h1 : wordsAux (ch :: ' ' :: tok.toList) [] = wordsAux (' ' :: tok.toList) [ch] := by
    simp only [wordsAux]
    rw [hch]
    rfl
  have h2 : wordsAux (' ' :: tok.toList) [ch] = String.mk [ch] :: wordsAux tok.toList [] := by
    simp only [wordsAux]
    rfl
  show wordsAux (ch :: ' ' :: tok.toList) [] = [String.mk [ch], tok]
  rw [h1, h2, wordsAux_all_nows tok.toList hall [] (Or.inr hne)]
  simp

theorem dropWS_all (cs : List Char) (hall : ∀ c ∈ cs, c.isWhitespace = false) :
    dropWS cs = cs := by
  cases cs with
  | nil => rfl
  | cons c cs' =>
      have hc := hall c (by simp)
      simp [dropWS, List.dropWhile_cons, hc]

theorem strTrim_nows (tok : String) (hall : ∀ c ∈ tok.toList, c.isWhitespace = false) :
    strTrim tok = tok := by
  unfold strTrim
  rw [show dropWS tok.toList = tok.toList from dropWS_all tok.toList hall]
  rw [dropWS_all tok.toList.reverse (fun c hc => hall c (by simpa using hc))]
  rw [List.reverse_reverse]
  exact strMk_toList tok

/-- Counterexample to claim C5 as stated: in state `S` (reached by one router
header) a second `r …` line is not treated as the next router's header — the
parser raises the `Expected "s "` protocol error and no transition happens. -/
theorem c5_s_state_counterexample :
    exStS.fsm = NSState.waitingS
      ∧ processLine exStS "r NickB BB oo 2024-01-01 00:00:00 1.2.3.5 9001 0"
          = .error
            "Expected an s line while parsing routers, not: r NickB BB oo 2024-01-01 00:00:00 1.2.3.5 9001 0" := by
  decide

/-- Claim C5 (corrected): in state `S`, an `s …` line records the flags on
the current router and moves to `W`, and an `a …` line records an IPv6
address and stays in `S` — but an `r …` line (any non-ignorable line that is
neither `s …` nor `a …`) is a protocol error raised by the catch-all `die`
transition, not a router header: `begin_router` does not run and parsing
aborts. -/
theorem c5_s_state_amended (objs : List (String × RouterRec))
    (routers : List (String × Option String)) (rbn : List (String × List String))
    (rbh : List (String × String)) (allR : List String) (gu au : List (String × String))
    (ref : String) (r : RouterRec) (tok : String)
    (hobj : mfind objs ref = some r)
    (hne : tok.toList ≠ [])
    (hall : ∀ c ∈ tok.toList, c.isWhitespace = false) :
    processLine ⟨objs, routers, rbn, rbh, allR, gu, au, some ref, NSState.waitingS⟩
        ("s " ++ tok)
      = .ok ⟨minsert objs ref { r with flags := [tok] }, routers, rbn, rbh, allR,
          (if [tok].contains "guard" then minsert gu r.idHex ref else gu),
          (if [tok].contains "authority" then minsert au r.name ref else au),
          some ref, NSState.waitingW⟩
    ∧ processLine ⟨objs, routers, rbn, rbh, allR, gu, au, some ref, NSState.waitingS⟩
        ("a " ++ tok)
      = .ok ⟨minsert objs ref { r with ipV6 := r.ipV6 ++ [tok] }, routers, rbn, rbh, allR,
          gu, au, some ref, NSState.waitingS⟩
    ∧ (∀ line : String, strTake line 2 = "r " → ignorableLine line = false →
        processLine ⟨objs, routers, rbn, rbh, allR, gu, au, some ref, NSState.waitingS⟩ line
          = .error ("Expected an s line while parsing routers, not: " ++ line)) := by
  have hdropS : (wsSplit ("s " ++ tok)).drop 1 = [tok] := by
    rw [wsSplit_pre_tok "s " 's' rfl rfl tok hne hall]
    rfl
  have hdropA : (wsSplit ("a " ++ tok)).drop 1 = [tok] := by
    rw [wsSplit_pre_tok "a " 'a' rfl rfl tok hne hall]
    rfl
  refine ⟨?_, ?_, ?_⟩
  · have hrf : routerFlags
        ⟨objs, routers, rbn, rbh, allR, gu, au, some ref, NSState.waitingS⟩ ("s " ++ tok)
        = .ok ⟨minsert objs ref { r with flags := [tok] }, routers, rbn, rbh, allR,
            (if [tok].contains "guard" then minsert gu r.idHex ref else gu),
            (if [tok].contains "authority" then minsert au r.name ref else au),
            some ref, NSState.waitingS⟩ := by
      show (match mfind objs ref with
        | none => (Except.error "AttributeError: unknown router object" : Except String NetState)
        | some r0 =>
            Except.ok ⟨minsert objs ref { r0 with flags := (wsSplit ("s " ++ tok)).drop 1 },
              routers, rbn, rbh, allR,
              (if ((wsSplit ("s " ++ tok)).drop 1).contains "guard"
               then minsert gu r0.idHex ref else gu),
              (if ((wsSplit ("s " ++ tok)).drop 1).contains "authority"
               then minsert au r0.name ref else au),
              some ref, NSState.waitingS⟩) = _
      rw [hdropS, hobj]
    show (match routerFlags
        ⟨objs, routers, rbn, rbh, allR, gu, au, some ref, NSState.waitingS⟩ ("s " ++ tok) with
      | .ok st' => Except.ok { st' with fsm := NSState.waitingW }
      | .error e => (Except.error e : Except String NetState)) = _
    rw [hrf]
  · have hra : routerAddress
        ⟨objs, routers, rbn, rbh, allR, gu, au, some ref, NSState.waitingS⟩ ("a " ++ tok)
        = .ok ⟨minsert objs ref { r with ipV6 := r.ipV6 ++ [tok] }, routers, rbn, rbh, allR,
            gu, au, some ref, NSState.waitingS⟩ := by
      show (match (wsSplit ("a " ++ tok)).drop 1 with
        | [] => (Except.error "IndexError: a line too short" : Except String NetState)
        | addr :: _ =>
            match mfind objs ref with
            | none => Except.error "AttributeError: unknown router object"
            | some r0 =>
                Except.ok ⟨minsert objs ref { r0 with ipV6 := r0.ipV6 ++ [strTrim addr] },
                  routers, rbn, rbh, allR, gu, au, some ref, NSState.waitingS⟩) = _
      rw [hdropA]
      show (match mfind objs ref with
        | none => (Except.error "AttributeError: unknown router object" : Except String NetState)
        | some r0 =>
            Except.ok ⟨minsert objs ref { r0 with ipV6 := r0.ipV6 ++ [strTrim tok] },
              routers, rbn, rbh, allR, gu, au, some ref, NSState.waitingS⟩) = _
      rw [hobj, strTrim_nows tok hall]
    show (match routerAddress
        ⟨objs, routers, rbn, rbh, allR, gu, au, some ref, NSState.waitingS⟩ ("a " ++ tok) with
      | .ok st' => Except.ok { st' with fsm := NSState.waitingS }
      | .error e => (Except.error e : Except String NetState)) = _
    rw [hra]
  · intro line hline hig
    have h1 : (strTake line 2 == "s ") = false := by
      rw [hline]
      decide
    have h2 : (strTake line 2 == "a ") = false := by
      rw [hline]
      decide
    show (if (strTake line 2 == "s ") = true then
        (match routerFlags ⟨objs, routers, rbn, rbh, allR, gu, au, some ref,
            NSState.waitingS⟩ line with
         | .ok st' => Except.ok { st' with fsm := NSState.waitingW }
         | .error e => (Except.error e : Except String NetState))
      else if (strTake line 2 == "a ") = true then
        (match routerAddress ⟨objs, routers, rbn, rbh, allR, gu, au, some ref,
            NSState.waitingS⟩ line with
         | .ok st' => Except.ok { st' with fsm := NSState.waitingS }
         | .error e => Except.error e)
      else if ignorableLine line = true then
        Except.ok ⟨objs, routers, rbn, rbh, allR, gu, au, some ref, NSState.waitingR⟩
      else Except.error ("Expected an s line while parsing routers, not: " ++ line)) = _
    rw [h1, h2, hig]
    rfl

/-- Witness for the corrected C5 at the concrete state `exStS`: an `s Fast`
line records the flag and moves to `W`; an `a ::1` line records the address
and stays in `S`; a bare `r NickB …` line errors out. -/
theorem c5_s_state_witness :
    processLine exStS "s Fast"
        = .ok ⟨[("$AA", { exRecA with flags := ["Fast"] })],
            [("NickA", some "$AA"), ("$AA", some "$AA")], [("NickA", ["$AA"])],
            [("$AA", "$AA")], ["$AA"], [], [], some "$AA", NSState.waitingW⟩
      ∧ processLine exStS "a ::1"
        = .ok ⟨[("$AA", { exRecA with ipV6 := ["::1"] })],
            [("NickA", some "$AA"), ("$AA", some "$AA")], [("NickA", ["$AA"])],
            [("$AA", "$AA")], ["$AA"], [], [], some "$AA", NSState.waitingS⟩
      ∧ processLine exStS "r NickB"
        = .error "Expected an s line while parsing routers, not: r NickB" := by
  have hst : exStS = ⟨[("$AA", exRecA)], [("NickA", some "$AA"), ("$AA", some "$AA")],
      [("NickA", ["$AA"])], [("$AA", "$AA")], ["$AA"], [], [], some "$AA",
      NSState.waitingS⟩ := by
    decide
  have h := c5_s_state_amended [("$AA", exRecA)]
    [("NickA", some "$AA"), ("$AA", some "$AA")] [("NickA", ["$AA"])]
    [("$AA", "$AA")] ["$AA"] [] [] "$AA" exRecA "Fast" (by decide) (by decide) (by decide)
  have h2 := c5_s_state_amended [("$AA", exRecA)]
    [("NickA", some "$AA"), ("$AA", some "$AA")] [("NickA", ["$AA"])]
    [("$AA", "$AA")] ["$AA"] [] [] "$AA" exRecA "::1" (by decide) (by decide) (by decide)
  refine ⟨?_, ?_, ?_⟩
  · rw [hst]
    exact h.1.trans (by decide)
  · rw [hst]
    exact h2.2.1.trans (by decide)
  · rw [hst]
    exact h.2.2 "r NickB" (by decide) (by decide)

/-! ### Claim C6 -/

theorem startsDollar_idHex (h : HeaderRec) : startsDollar h.idHex = true := rfl

theorem any_idHex_false (fs : List HeaderRec) (k : String)
    (hk : startsDollar k = false) :
    fs.any (fun r => r.idHex == k) = false := by
  induction fs with
  | nil => rfl
  | cons r rest ih =>
      have hne : r.idHex ≠ k := by
        intro hc
        rw [← hc, startsDollar_idHex] at hk
        cases hk
      simp [List.any_cons, ih, beq_eq_false_iff_ne.mpr hne]

theorem filter_name_dollar (fs : List HeaderRec) (k : String)
    (hk : startsDollar k = true)
    (hnames : ∀ r ∈ fs, startsDollar r.name = false) :
    fs.filter (fun r => r.name == k) = [] := by
  induction fs with
  | nil => rfl
  | cons r rest ih =>
      have hr : startsDollar r.name = false := hnames r (by simp)
      have hne : r.name ≠ k := by
        intro hc
        rw [hc, hk] at hr
        cases hr
      simp [List.filter_cons, beq_eq_false_iff_ne.mpr hne,
        ih (fun x hx => hnames x (by simp [hx]))]

theorem name_ne_idHex (a : String) (b : String) (ha : startsDollar a = false)
    (hb : startsDollar b = true) : a ≠ b := by
  intro hc
  rw [hc, hb] at ha
  cases ha

theorem match2_some_none (l : List HeaderRec) (hl : 2 ≤ l.length) :
    (match l with
     | [] => (none : Option (Option String))
     | [r] => some (some r.idHex)
     | _ :: _ :: _ => some none) = some none := by
  cases l with
  | nil => simp at hl
  | cons a t =>
      cases t with
      | nil => simp at hl
      | cons b t2 => rfl

theorem rbinv_init : RBInv initNetState [] := by
  refine ⟨fun n => rfl, fun k => rfl, ?_, ?_⟩
  · simp [initNetState, mkeys]
  · intro r hr
    simp at hr

theorem rbinv_step (st : NetState) (fs : List HeaderRec) (h : HeaderRec)
    (inv : RBInv st fs) (hh : startsDollar h.name = false) :
    RBInv (routerBeginRec st h) (firstsAux fs h) := by
  by_cases hseen : fs.any (fun r => r.idHex == h.idHex) = true
  · have hfind : mfind st.routers h.idHex = some (some h.idHex) := by
      rw [inv.routersEq]
      simp [expectedRouters, hseen]
    have hfa : firstsAux fs h = fs := by
      simp [firstsAux, hseen]
    have hrb : routerBeginRec st h = { st with current := some h.idHex } := by
      unfold routerBeginRec
      rw [hfind]
    rw [hrb, hfa]
    exact ⟨inv.byName, inv.routersEq, inv.nodup, inv.namesOk⟩
  · have hseenF : fs.any (fun r => r.idHex == h.idHex) = false := by
      cases hx : fs.any (fun r => r.idHex == h.idHex) with
      | true => exact absurd hx hseen
      | false => rfl
    have hfilId : fs.filter (fun r => r.name == h.idHex) = [] :=
      filter_name_dollar fs h.idHex (startsDollar_idHex h) inv.namesOk
    have hfindId : mfind st.routers h.idHex = none := by
      rw [inv.routersEq]
      simp [expectedRouters, hseenF, hfilId]
    have hfa : firstsAux fs h = fs ++ [h] := by
      simp [firstsAux, hseenF]
    have hnameid : h.name ≠ h.idHex := name_ne_idHex h.name h.idHex hh (startsDollar_idHex h)
    have hrb : routerBeginRec st h = { st with
        objs := minsert st.objs h.idHex h.toRouter
        routers := minsert
          (if (mfind st.routers h.name).isSome then minsert st.routers h.name none
           else minsert st.routers h.name (some h.idHex)) h.idHex (some h.idHex)
        routersByName :=
          (match mfind st.routersByName h.name with
           | some l => minsert st.routersByName h.name (l ++ [h.idHex])
           | none => minsert st.routersByName h.name [h.idHex])
        routersByHash := minsert st.routersByHash h.idHex h.idHex
        allRouters :=
          if st.allRouters.contains h.idHex then st.allRouters
          else st.allRouters ++ [h.idHex]
        current := some h.idHex } := by
      unfold routerBeginRec
      rw [hfindId]
    rw [hrb, hfa]
    have hanyname : fs.any (fun r => r.idHex == h.name) = false :=
      any_idHex_false fs h.name hh
    refine ⟨?_, ?_, ?_, ?_⟩
    · intro n
      show mfind
        (match mfind st.routersByName h.name with
         | some l => minsert st.routersByName h.name (l ++ [h.idHex])
         | none => minsert st.routersByName h.name [h.idHex]) n = _
      by_cases hn : n = h.name
      · subst hn
        have hbn := inv.byName h.name
        cases hfil : fs.filter (fun r => r.name == h.name) with
        | nil =>
            rw [hfil] at hbn
            have hbn' : mfind st.routersByName h.name = none := hbn
            rw [hbn', mfind_minsert_self]
            rw [List.filter_append, hfil]
            simp [List.filter_cons]
        | cons r1 restf =>
            rw [hfil] at hbn
            have hbn' : mfind st.routersByName h.name
                = some (HeaderRec.idHex r1 :: restf.map HeaderRec.idHex) := hbn
            rw [hbn', mfind_minsert_self]
            rw [List.filter_append, hfil]
            simp [List.filter_cons]
      · have hbn := inv.byName n
        have hne : n ≠ h.name := hn
        have hfilapp : (fs ++ [h]).filter (fun r => r.name == n) =
            fs.filter (fun r => r.name == n) := by
          rw [List.filter_append]
          simp [List.filter_cons, beq_eq_false_iff_ne.mpr (fun hc => hn hc.symm)]
        rw [hfilapp]
        cases hbnv : mfind st.routersByName h.name with
        | some l =>
            rw [mfind_minsert_ne _ _ _ _ hne]
            exact hbn
        | none =>
            rw [mfind_minsert_ne _ _ _ _ hne]
            exact hbn
    · intro k
      show mfind (minsert
        (if (mfind st.routers h.name).isSome then minsert st.routers h.name none
         else minsert st.routers h.name (some h.idHex)) h.idHex (some h.idHex)) k = _
      by_cases hk1 : k = h.idHex
      · subst hk1
        rw [mfind_minsert_self]
        have hany : (fs ++ [h]).any (fun r => r.idHex == h.idHex) = true := by
          rw [List.any_append]
          simp
        simp [expectedRouters, hany]
      · by_cases hk2 : k = h.name
        · subst hk2
          rw [mfind_minsert_ne _ _ _ _ hk1]
          have hanyapp : (fs ++ [h]).any (fun r => r.idHex == h.name) = false := by
            rw [List.any_append]
            simp [hanyname, beq_eq_false_iff_ne.mpr (fun hc => hk1 hc.symm)]
          have hre := inv.routersEq h.name
          cases hfil : fs.filter (fun r => r.name == h.name) with
          | nil =>
              have hold : mfind st.routers h.name = none := by
                rw [hre]
                simp [expectedRouters, hanyname, hfil]
              rw [hold]
              show mfind (minsert st.routers h.name (some h.idHex)) h.name = _
              rw [mfind_minsert_self]
              have hfh : (fs ++ [h]).filter (fun r => r.name == h.name) = [h] := by
                rw [List.filter_append, hfil]
                simp [List.filter_cons]
              simp [expectedRouters, hanyapp, hfh]
          | cons r1 restf =>
              have hfilapp : (fs ++ [h]).filter (fun r => r.name == h.name)
                  = r1 :: (restf ++ [h]) := by
                rw [List.filter_append, hfil]
                simp [List.filter_cons]
              have hold : (mfind st.routers h.name).isSome = true := by
                rw [hre]
                cases restf with
                | nil => simp [expectedRouters, hanyname, hfil]
                | cons r2 restf2 => simp [expectedRouters, hanyname, hfil]
              rw [if_pos hold, mfind_minsert_self]
              have hlen : 2 ≤ ((fs ++ [h]).filter (fun r => r.name == h.name)).length := by
                rw [hfilapp]
                simp
              rw [show expectedRouters (fs ++ [h]) h.name = some none from by
                unfold expectedRouters
                rw [hanyapp]
                simp only [Bool.false_eq_true, if_false]
                exact match2_some_none _ hlen]
        · have hkid : k ≠ h.idHex := hk1
          have hkname : k ≠ h.name := hk2
          rw [mfind_minsert_ne _ _ _ _ hkid]
          have hmid : mfind
              (if (mfind st.routers h.name).isSome then minsert st.routers h.name none
               else minsert st.routers h.name (some h.idHex)) k = mfind st.routers k := by
            by_cases hvs : (mfind st.routers h.name).isSome = true
            · rw [if_pos hvs, mfind_minsert_ne _ _ _ _ hkname]
            · rw [if_neg hvs, mfind_minsert_ne _ _ _ _ hkname]
          rw [hmid, inv.routersEq k]
          have hanyapp : (fs ++ [h]).any (fun r => r.idHex == k)
              = fs.any (fun r => r.idHex == k) := by
            rw [List.any_append]
            simp [beq_eq_false_iff_ne.mpr (fun hc => hkid hc.symm)]
          have hfilapp : (fs ++ [h]).filter (fun r => r.name == k)
              = fs.filter (fun r => r.name == k) := by
            rw [List.filter_append]
            simp [List.filter_cons, beq_eq_false_iff_ne.mpr (fun hc => hkname hc.symm)]
          unfold expectedRouters
          rw [hanyapp, hfilapp]
    · show (mkeys (minsert
        (if (mfind st.routers h.name).isSome then minsert st.routers h.name none
         else minsert st.routers h.name (some h.idHex)) h.idHex (some h.idHex))).Nodup
      have h1 := inv.nodup
      by_cases hvs : (mfind st.routers h.name).isSome = true
      · rw [if_pos hvs]
        exact mkeys_minsert_nodup _ _ _ (mkeys_minsert_nodup _ _ _ h1)
      · rw [if_neg hvs]
        exact mkeys_minsert_nodup _ _ _ (mkeys_minsert_nodup _ _ _ h1)
    · intro r hr
      rcases List.mem_append.1 hr with hr | hr
      · exact inv.namesOk r hr
      · have hrh : r = h := by simpa using hr
        rw [hrh]
        exact hh

theorem rbinv_fold (l : List HeaderRec) (hl : ∀ r ∈ l, startsDollar r.name = false) :
    ∀ st fs, RBInv st fs → RBInv (l.foldl routerBeginRec st) (l.foldl firstsAux fs) := by
  induction l with
  | nil => intro st fs inv; exact inv
  | cons h rest ih =>
      intro st fs inv
      exact ih (fun r hr => hl r (by simp [hr])) _ _
        (rbinv_step st fs h inv (hl h (by simp)))

/-- Counterexample to claim C6 as stated: after a bootstrap parse seeing two
distinct routers named `N` and an NS re-parse seeing a third router named
`N`, the nickname is claimed by three distinct routers (`routers_by_name[N]`
lists all three), yet `routers[N]` is repopulated by the third router instead
of returning nothing — the earlier nulling is not remembered across parses. -/
theorem c6_nickname_counterexample :
    c6twoParse = .ok c6finalState
      ∧ mfind c6finalState.routers "N" = some (some "$C")
      ∧ mfind c6finalState.routersByName "N" = some ["$A", "$B", "$C"] := by
  decide

/-- Claim C6 (corrected): within a single consensus parse starting from empty
router indices — viewing the parse as the sequence of router headers
`_router_begin` processes, with nicknames never starting with `$` — the
invariant holds: a nickname claimed by two or more distinct (by fingerprint)
routers is absent from `routers` after the dedup pass, a nickname claimed by
exactly one router maps to it, and `routers_by_name` lists every claimant
exactly once in order of first appearance.  Across re-parses the invariant
can break, because `routers` and `routers_by_name` are never cleared and a
previously nulled nickname slot can be retaken (see the counterexample). -/
theorem c6_nickname_amended (rs : List HeaderRec)
    (hnames : ∀ r ∈ rs, startsDollar r.name = false) (n : String) :
    (2 ≤ ((firstHeaders rs).filter (fun r => r.name == n)).length →
        mfind (runHeaderParse rs).routers n = none)
      ∧ (∀ r0, (firstHeaders rs).filter (fun r => r.name == n) = [r0] →
          mfind (runHeaderParse rs).routers n = some (some r0.idHex))
      ∧ (mfind (runHeaderParse rs).routersByName n =
          (match ((firstHeaders rs).filter (fun r => r.name == n)).map HeaderRec.idHex with
           | [] => none
           | l => some l)) := by
  have inv : RBInv (rs.foldl routerBeginRec initNetState) (firstHeaders rs) :=
    rbinv_fold rs hnames initNetState [] rbinv_init
  have hclean : ∀ k, mfind (runHeaderParse rs).routers k =
      (match expectedRouters (firstHeaders rs) k with
       | some v => if v.isSome then some v else none
       | none => none) := by
    intro k
    show mfind (((rs.foldl routerBeginRec initNetState).routers).filter
        (fun kv => kv.2.isSome)) k = _
    rw [mfind_mfilter _ _ inv.nodup k]
    rw [inv.routersEq k]
    cases expectedRouters (firstHeaders rs) k <;> rfl
  refine ⟨?_, ?_, ?_⟩
  · intro hlen
    have hnd : startsDollar n = false := by
      have hpos : 0 < ((firstHeaders rs).filter (fun r => r.name == n)).length := by omega
      obtain ⟨r, hrmem⟩ := List.exists_mem_of_length_pos hpos
      obtain ⟨hrfs, hrn⟩ := List.mem_filter.1 hrmem
      have : r.name = n := by simpa using hrn
      rw [← this]
      exact inv.namesOk r hrfs
    have hany : (firstHeaders rs).any (fun r => r.idHex == n) = false :=
      any_idHex_false _ n hnd
    rw [hclean n]
    rw [show expectedRouters (firstHeaders rs) n = some none from by
      unfold expectedRouters
      rw [hany]
      simp only [Bool.false_eq_true, if_false]
      exact match2_some_none _ hlen]
    rfl
  · intro r0 hfil
    have hnd : startsDollar n = false := by
      have hrmem : r0 ∈ (firstHeaders rs).filter (fun r => r.name == n) := by
        rw [hfil]
        simp
      obtain ⟨hrfs, hrn⟩ := List.mem_filter.1 hrmem
      have : r0.name = n := by simpa using hrn
      rw [← this]
      exact inv.namesOk r0 hrfs
    have hany : (firstHeaders rs).any (fun r => r.idHex == n) = false :=
      any_idHex_false _ n hnd
    rw [hclean n]
    rw [show expectedRouters (firstHeaders rs) n = some (some r0.idHex) from by
      unfold expectedRouters
      rw [hany, hfil]
      simp]
    rfl
  · show mfind ((rs.foldl routerBeginRec initNetState).routersByName) n = _
    exact inv.byName n

/-- Witness for the corrected C6: two headers sharing nickname `N` leave
`routers[N]` absent and `routers_by_name[N] = [$A, $B]`; a single header
leaves `routers[N] = $A`. -/
theorem c6_nickname_witness :
    mfind (runHeaderParse [c6hdrA, c6hdrB]).routers "N" = none
      ∧ mfind (runHeaderParse [c6hdrA, c6hdrB]).routersByName "N" = some ["$A", "$B"]
      ∧ mfind (runHeaderParse [c6hdrA]).routers "N" = some (some "$A") := by
  have h2 := c6_nickname_amended [c6hdrA, c6hdrB] (by decide) "N"
  have h1 := c6_nickname_amended [c6hdrA] (by decide) "N"
  refine ⟨?_, ?_, ?_⟩
  · exact h2.1 (by decide)
  · rw [h2.2.2]
    decide
  · exact h1.2.1 c6hdrA (by decide)

end Txtorcon
